import Mathlib

/-!
Verification of the Cloud Component Discovery and Classification pipeline.

This file shallowly embeds the pipeline of the repository:
  backend/app/services/temenos_service.py  (classifier, enrichment, batch analysis)
  backend/app/services/aks_service.py      (pod adapter, credential resolver, namespace filter)
  backend/app/api/deployment.py            (analyze endpoint, aggregator/deduplicator)

Python strings become Lean String values; Python dicts of tags/properties become
association lists; the external RAG knowledge service becomes an oracle
(RagEnv) giving, for each (component name, category) pair, the outcome of the
architectural and functional queries; subprocess results of the credential
resolver become an environment record (CredEnv).
-/

namespace CloudDiscovery

/-! ### String helpers (Python semantics) -/

/-- Python substring test: needle occurs inside hay (the operator form x in y). -/
def containsB (hay needle : String) : Bool :=
  decide (needle.toList <:+: hay.toList)

theorem containsB_iff {hay needle : String} :
    containsB hay needle = true ↔ needle.toList <:+: hay.toList := by
  simp [containsB]

/-- A needle that contains a second needle as a list-infix transfers containment. -/
theorem containsB_mono {t n₁ n₂ : String} (h : n₂.toList <:+: n₁.toList)
    (h₁ : containsB t n₁ = true) : containsB t n₂ = true := by
  rw [containsB_iff] at h₁ ⊢
  exact h.trans h₁

/-- Python str.lower() (the inputs of this pipeline are ASCII). -/
def strToLower (s : String) : String := ⟨s.toList.map Char.toLower⟩

/-- Python str.startswith(prefix). -/
def strStartsWith (s pre : String) : Bool := pre.toList.isPrefixOf s.toList

/-- Python str.split(sep) for the one-character separators the source uses. -/
def splitOnCharAux (sep : Char) : List Char → List Char → List String
  | [], acc => [⟨acc.reverse⟩]
  | c :: cs, acc =>
    if c = sep then (⟨acc.reverse⟩ : String) :: splitOnCharAux sep cs []
    else splitOnCharAux sep cs (c :: acc)

def splitOnChar (s : String) (sep : Char) : List String := splitOnCharAux sep s.toList []

/-- Python dict .get(k): first binding wins (we keep keys unique on insertion). -/
def dictGet (d : List (String × String)) (k : String) : Option String :=
  (d.find? (fun p => p.1 == k)).map (·.2)

/-- Python dict .get(k, dflt). -/
def dictGetD (d : List (String × String)) (k : String) (dflt : String) : String :=
  (dictGet d k).getD dflt

/-- Python dict assignment d[k] = v: replace the binding if the key exists, else append. -/
def dictSet (d : List (String × String)) (k v : String) : List (String × String) :=
  if (d.find? (fun p => p.1 == k)).isSome then
    d.map (fun p => if p.1 == k then (p.1, v) else p)
  else d ++ [(k, v)]

/-- Characters Python str.strip() removes. -/
def isPyWhitespace (c : Char) : Bool :=
  c = ' ' || c = '\t' || c = '\n' || c = '\r' || c = '\x0b' || c = '\x0c'

/-- Python str.strip(): drop leading and trailing whitespace. -/
def stripStr (s : String) : String :=
  ⟨((s.toList.dropWhile isPyWhitespace).reverse.dropWhile isPyWhitespace).reverse⟩

/-! ### Generic resource model (`AzureResource` in azure_service.py) -/

structure AzureResource where
  id : String
  name : String
  /-- resource_type in the Python constructor, stored as self.type -/
  type : String
  location : String
  resourceGroup : String
  tags : List (String × String)
  properties : List (String × String)
  deriving DecidableEq, Repr, Inhabited

/-! ### Component Classifier: candidate filter
(temenos_service.py, TemenosService._is_potential_temenos_component) -/

/-- The fixed infrastructure deny-list of _is_potential_temenos_component
(types matched by substring against the lower-cased resource type). -/
def infrastructureTypes : List String :=
  ["microsoft.network/networksecuritygroups",
   "microsoft.network/virtualnetworks",
   "microsoft.network/privatednszones",
   "microsoft.network/networkinterfaces",
   "microsoft.network/publicipaddresses",
   "microsoft.network/loadbalancers",
   "microsoft.network/applicationgateways",
   "microsoft.network/privatelinkservices",
   "microsoft.network/privatendpoints",
   "microsoft.storage/storageaccounts",
   "microsoft.keyvault/vaults",
   "microsoft.insights/components",
   "microsoft.operationalinsights/workspaces"]

/-- temenos_patterns of _is_potential_temenos_component; every regex in the
source is a literal word, so re.search is a substring test. -/
def temenosPatterns : List String :=
  ["transact", "payments", "wealth", "digital", "analytics",
   "datahub", "modular", "tap", "adapter", "genericconfig",
   "eventstore", "stmtgen", "notification", "audit", "file",
   "workflow", "integration", "temenos"]

/-- relevant_types of _is_potential_temenos_component. -/
def relevantTypes : List String :=
  ["microsoft.containerservice/managedclusters",
   "microsoft.containerservice/managedclusters/pods",
   "microsoft.app/containerapps",
   "microsoft.sql/servers",
   "microsoft.sql/databases",
   "microsoft.documentdb/databaseaccounts",
   "microsoft.compute/virtualmachines",
   "microsoft.compute/virtualmachinescalesets"]

/-- Python truthiness of service.tags.get("temenosComponent") or
service.tags.get("component"): present with a non-empty value. -/
def hasTruthyComponentTag (r : AzureResource) : Bool :=
  dictGetD r.tags "temenosComponent" "" != "" || dictGetD r.tags "component" "" != ""

/-- Does the lower-cased resource type match the infrastructure deny-list? -/
def matchesInfraDenyList (resourceType : String) : Bool :=
  infrastructureTypes.any (fun t => containsB (strToLower resourceType) t)

/-- TemenosService._is_potential_temenos_component.  The tag check comes first
in the source, before the deny-list; for pod-typed resources the source checks
namespace patterns but returns True on both branches, so the pod branch is
embedded as the constant true. -/
def isPotentialTemenosComponent (r : AzureResource) : Bool :=
  if hasTruthyComponentTag r then true
  else
    let name := strToLower r.name
    let resourceType := strToLower r.type
    if infrastructureTypes.any (fun t => containsB resourceType t) then false
    else
      let hasTemenosName := temenosPatterns.any (fun p => containsB name p)
      let isRelevantType := relevantTypes.any (fun t => containsB resourceType t)
      if containsB resourceType "managedclusters/pods" then
        -- source: checks temenos_namespace_patterns on properties["namespace"] and
        -- returns True when they match, then returns True unconditionally anyway
        true
      else
        hasTemenosName || (isRelevantType && hasTemenosName)

/-! ### Component Classifier: name extraction
(temenos_service.py, TemenosService._extract_component_name and helpers) -/

/-- Case-insensitive prefix test against a lower-case pattern. -/
def ciPrefixOf : List Char → List Char → Bool
  | [], _ => true
  | _ :: _, [] => false
  | p :: ps, c :: cs => p == c.toLower && ciPrefixOf ps cs

/-- Remove every (left-to-right, non-overlapping) case-insensitive occurrence of
a lower-case literal pattern, as re.sub(pattern, "", s, flags=re.IGNORECASE)
does for the literal patterns used by _normalize_component_name.  Fuel-driven;
fuel = length of the text suffices since every step consumes a character. -/
def removeAllCIAux (pat : List Char) : Nat → List Char → List Char
  | 0, s => s
  | _ + 1, [] => []
  | fuel + 1, c :: cs =>
    if pat.length != 0 && ciPrefixOf pat (c :: cs) then
      removeAllCIAux pat fuel ((c :: cs).drop pat.length)
    else
      c :: removeAllCIAux pat fuel cs

def removeAllCI (s : String) (pat : String) : String :=
  ⟨removeAllCIAux pat.toList s.toList.length s.toList⟩

/-- TemenosService._normalize_component_name. -/
def normalizeComponentName (name : String) : String :=
  let n := removeAllCI name "microsoft."
  let n := removeAllCI n "azure"
  let n := removeAllCI n "service"
  let n := removeAllCI n "appinitapp"
  let n := removeAllCI n "appinit"
  let n := stripStr n
  if n = "" then "Temenos Component" else n

/-- TemenosService._categorize_component. -/
def categorizeComponent (name : String) : String :=
  if ["microservice", "adapter", "config", "event"].any
      (fun t => containsB (strToLower name) t) then "microservice"
  else "core"

/-- temenos_namespaces dict of _extract_component_name (exact lookup on the
lower-cased namespace).  The source lists the key "webingress" twice with the
same value; a dict keeps one binding, embedded once here. -/
def temenosNamespaces : List (String × String) :=
  [("eventstore", "Event Store Microservice"),
   ("adapterservice", "Adapter Microservice"),
   ("adapter-service", "Adapter Microservice"),
   ("genericconfig", "Generic Config Microservice"),
   ("generic-config", "Generic Config Microservice"),
   ("holdings", "Holdings Microservice"),
   ("partyv2", "Party V2 Microservice"),
   ("party-v2", "Party V2 Microservice"),
   ("transact", "Temenos Transact"),
   ("modular-banking", "Modular Banking"),
   ("modularbanking", "Modular Banking"),
   ("webingress", "Web Ingress Microservice"),
   ("deposits202507", "Deposits Microservice"),
   ("ingress-nginx-deposits-202507", "Deposits Ingress Service"),
   ("ingress-nginx-lending", "Lending Ingress Service"),
   ("ingress-nginx-transact", "Transact Ingress Service"),
   ("stmtgen", "Statement Generation Microservice"),
   ("stmt-gen", "Statement Generation Microservice"),
   ("notification", "Notification Microservice"),
   ("audit", "Audit Microservice"),
   ("file", "File Management Microservice"),
   ("workflow", "Workflow Microservice"),
   ("integration", "Integration Microservice"),
   ("deposits", "Deposits Microservice"),
   ("lending", "Lending Microservice"),
   ("web-ingress", "Web Ingress Microservice"),
   ("ingress", "Ingress Microservice"),
   ("tap", "Temenos TAP"),
   ("tap-service", "Temenos TAP Service"),
   ("temenos", "Temenos Component"),
   ("t24", "Temenos Transact"),
   ("temenos-transact", "Temenos Transact")]

/-- The pattern-based namespace fallback chain of _extract_component_name
(each test in the source is a plain substring check on the lower-cased
namespace). -/
def namespacePatternName (nsLower : String) : Option String :=
  if containsB nsLower "eventstore" || containsB nsLower "event-store" ||
     containsB nsLower "event" then some "Event Store Microservice"
  else if containsB nsLower "adapter" || containsB nsLower "adapt" then
    some "Adapter Microservice"
  else if containsB nsLower "genericconfig" || containsB nsLower "generic-config" ||
     containsB nsLower "config" then some "Generic Config Microservice"
  else if containsB nsLower "holdings" || containsB nsLower "holding" then
    some "Holdings Microservice"
  else if containsB nsLower "party" || containsB nsLower "partyv2" ||
     containsB nsLower "party-v2" then some "Party V2 Microservice"
  else if containsB nsLower "transact" || containsB nsLower "t24" ||
     containsB nsLower "temenos-transact" then some "Temenos Transact"
  else if containsB nsLower "modular" || containsB nsLower "modularbanking" ||
     containsB nsLower "modular-banking" then some "Modular Banking"
  else if containsB nsLower "stmtgen" || containsB nsLower "stmt-gen" ||
     containsB nsLower "statement" then some "Statement Generation Microservice"
  else if containsB nsLower "notification" || containsB nsLower "notify" then
    some "Notification Microservice"
  else if containsB nsLower "audit" || containsB nsLower "auditing" then
    some "Audit Microservice"
  else if containsB nsLower "file" || containsB nsLower "files" then
    some "File Management Microservice"
  else if containsB nsLower "workflow" || containsB nsLower "workflows" then
    some "Workflow Microservice"
  else if containsB nsLower "integration" || containsB nsLower "integrate" then
    some "Integration Microservice"
  else if containsB nsLower "deposits" || containsB nsLower "deposit" then
    some "Deposits Microservice"
  else if containsB nsLower "lending" || containsB nsLower "lend" then
    some "Lending Microservice"
  else if containsB nsLower "webingress" || containsB nsLower "web-ingress" then
    some "Web Ingress Microservice"
  else if containsB nsLower "ingress" && containsB nsLower "nginx" then
    (if containsB nsLower "transact" then some "Transact Ingress Service"
     else if containsB nsLower "deposits" then some "Deposits Ingress Service"
     else if containsB nsLower "lending" then some "Lending Ingress Service"
     else some "Ingress Service")
  else if containsB nsLower "ingress" then some "Ingress Microservice"
  else if containsB nsLower "tap" || containsB nsLower "tap-service" then
    some "Temenos TAP"
  else if containsB nsLower "temenos" then some "Temenos Component"
  else none

/-- Word character of the regex \w (ASCII range, which is all the source uses). -/
def isWordChar (c : Char) : Bool := c.isAlphanum || c = '_'

def prevIsWord : Option Char → Bool
  | none => false
  | some c => isWordChar c

/-- re.search of the word-bounded pattern for "tap" used by component_patterns. -/
def hasWordTapAux : Option Char → List Char → Bool
  | _, [] => false
  | prev, c :: cs =>
    (match c, cs with
     | 't', 'a' :: 'p' :: rest =>
       if !prevIsWord prev &&
          (match rest with | [] => true | d :: _ => !isWordChar d) then true
       else hasWordTapAux (some c) cs
     | _, _ => hasWordTapAux (some c) cs)

def hasWordTap (s : String) : Bool := hasWordTapAux none s.toList

/-- microservice_patterns of _extract_component_name; every regex there is an
alternation of literal words (a leading anchor alternated with the unanchored
word is just the unanchored word), so each row is a substring test. -/
def msPatternName (name : String) : Option (String × String) :=
  if containsB name "holdings" then some ("Holdings Microservice", "microservice")
  else if containsB name "adapter" then some ("Adapter Microservice", "microservice")
  else if containsB name "genericconfig" then some ("Generic Config Microservice", "microservice")
  else if containsB name "eventstore" || containsB name "event-store" then
    some ("Event Store Microservice", "microservice")
  else if containsB name "stmtgen" then some ("Statement Generation Microservice", "microservice")
  else if containsB name "notification" then some ("Notification Microservice", "microservice")
  else if containsB name "audit" then some ("Audit Microservice", "microservice")
  else if containsB name "file" then some ("File Management Microservice", "microservice")
  else if containsB name "workflow" then some ("Workflow Microservice", "microservice")
  else if containsB name "integration" then some ("Integration Microservice", "microservice")
  else none

/-- component_patterns of _extract_component_name (plain substrings except the
word-bounded "tap"). -/
def cmpPatternName (name : String) : Option (String × String) :=
  if containsB name "transact" then some ("Temenos Transact", "core")
  else if containsB name "payments" then some ("Temenos Payments", "core")
  else if containsB name "wealth" then some ("Temenos Wealth", "core")
  else if containsB name "digital" then some ("Temenos Digital", "core")
  else if containsB name "analytics" then some ("Temenos Analytics", "core")
  else if containsB name "datahub" then some ("Temenos Data Hub", "core")
  else if containsB name "modular" then some ("Temenos Modular Banking", "core")
  else if hasWordTap name then some ("Temenos TAP", "core")
  else none

/-- Return record of _extract_component_name. -/
structure Extracted where
  componentName : String
  normalizedName : String
  componentCategory : String
  deriving DecidableEq, Repr

/-- Python or-chain over possibly-empty strings: first non-empty value. -/
def firstNonempty (l : List String) : String :=
  match l.find? (fun s => s != "") with
  | some s => s
  | none => ""

/-- TemenosService._extract_component_name. -/
def extractComponentName (r : AzureResource) : Option Extracted :=
  if dictGetD r.tags "temenosComponent" "" != "" then
    let tagName := dictGetD r.tags "temenosComponent" ""
    some ⟨tagName, normalizeComponentName tagName, categorizeComponent tagName⟩
  else if dictGetD r.tags "component" "" != "" then
    let tagName := dictGetD r.tags "component" ""
    some ⟨tagName, normalizeComponentName tagName, categorizeComponent tagName⟩
  else if containsB (strToLower r.type) "managedclusters/pods" then
    -- namespace: properties["namespace"] or properties["namespace_name"] or
    -- tags["namespace"] or ""
    let ns0 := firstNonempty
      [dictGetD r.properties "namespace" "",
       dictGetD r.properties "namespace_name" "",
       dictGetD r.tags "namespace" ""]
    -- pod name: last "/"-separated part of the display name; namespace falls
    -- back to the second-to-last part (the source repeats this fallback twice,
    -- the second occurrence is a no-op)
    let parts := splitOnChar r.name '/'
    let podName := if containsB r.name "/" then (parts.getLast?).getD r.name else r.name
    let ns := if ns0 = "" && containsB r.name "/" && parts.length ≥ 2 then
                (parts.get? (parts.length - 2)).getD ""
              else ns0
    let fromNamespace : Option String :=
      if ns != "" then
        match (temenosNamespaces.find? (fun p => p.1 == strToLower ns)).map (·.2) with
        | some exact => some exact
        | none => namespacePatternName (strToLower ns)
      else none
    match fromNamespace with
    | some normalized =>
        some ⟨podName, normalized,
              if containsB normalized "Microservice" then "microservice" else "core"⟩
    | none =>
        let nameLower := strToLower podName
        match msPatternName nameLower with
        | some (msName, cat) => some ⟨r.name, msName, cat⟩
        | none =>
          match cmpPatternName nameLower with
          | some (cName, cat) => some ⟨r.name, cName, cat⟩
          | none =>
            if containsB (strToLower r.type) "temenos" || containsB (strToLower r.type) "transact" then
              some ⟨r.name, normalizeComponentName r.type, "core"⟩
            else none
  else
    let nameLower := strToLower r.name
    match msPatternName nameLower with
    | some (msName, cat) => some ⟨r.name, msName, cat⟩
    | none =>
      match cmpPatternName nameLower with
      | some (cName, cat) => some ⟨r.name, cName, cat⟩
      | none =>
        if containsB (strToLower r.type) "temenos" || containsB (strToLower r.type) "transact" then
          some ⟨r.name, normalizeComponentName r.type, "core"⟩
        else none

/-! ### Knowledge Enrichment: response formatting and capability extraction
(temenos_service.py, _format_rag_response and _extract_capabilities) -/

/-- re.sub of newline runs: each maximal run of three or more newlines becomes
exactly two; runs of one or two are kept.  Implemented per character with a
count of the newlines already emitted in the current run. -/
def collapseNlAux : Nat → List Char → List Char
  | _, [] => []
  | k, c :: cs =>
    if c = '\n' then
      if k < 2 then '\n' :: collapseNlAux (k + 1) cs else collapseNlAux (k + 1) cs
    else c :: collapseNlAux 0 cs

/-- re.sub of space/tab runs: each maximal run of three or more spaces or tabs
becomes a single space; shorter runs are kept verbatim.  Fuel-driven. -/
def collapseSpAux : Nat → List Char → List Char
  | 0, s => s
  | _ + 1, [] => []
  | fuel + 1, c :: cs =>
    if c = ' ' || c = '\t' then
      let run := (c :: cs).takeWhile (fun x => x = ' ' || x = '\t')
      let rest := (c :: cs).dropWhile (fun x => x = ' ' || x = '\t')
      (if run.length ≥ 3 then [' '] else run) ++ collapseSpAux fuel rest
    else c :: collapseSpAux fuel cs

/-- TemenosService._format_rag_response: whitespace normalisation only, no
truncation, with the two fixed not-available strings passed through. -/
def formatRagResponse (text : String) : String :=
  if text = "" ∨ text = "Information not available - timeout" ∨
     text = "Information not available" then text
  else
    stripStr ⟨collapseSpAux text.toList.length (collapseNlAux 0 text.toList)⟩

/-- re.split on runs of sentence punctuation [.!?]+, keeping the (possibly
empty) pieces before the first and after the last run, as re.split does. -/
def splitSepRuns (p : Char → Bool) : List Char → Bool → List Char → List String
  | [], _, acc => [⟨acc.reverse⟩]
  | c :: cs, inSep, acc =>
    if p c then
      if inSep then splitSepRuns p cs true acc
      else (⟨acc.reverse⟩ : String) :: splitSepRuns p cs true []
    else splitSepRuns p cs false (c :: acc)

def splitSentences (text : String) : List String :=
  splitSepRuns (fun c => c = '.' || c = '!' || c = '?') text.toList false []

/-- capability_patterns of _extract_capabilities; each regex is a literal word,
searched case-insensitively, hence a substring test on the lower-cased text. -/
def capabilityPatterns : List String :=
  ["supports", "provides", "enables", "allows", "can", "handles",
   "manages", "processes", "facilitates", "delivers", "offers",
   "includes", "features", "capabilities", "functions"]

/-- re.sub(r"^\W+", "", s): strip the leading run of non-word characters. -/
def stripLeadingNonWord (s : String) : String :=
  ⟨s.toList.dropWhile (fun c => !isWordChar c)⟩

/-- One sentence of the first capability scan of _extract_capabilities. -/
def sentenceCapability (sentence : String) : Option String :=
  let st := stripStr sentence
  if st.length < 20 then none
  else if capabilityPatterns.any (fun p => containsB (strToLower st) p) then
    let clean := stripStr (stripLeadingNonWord st)
    if clean.length > 20 && clean.length < 200 then some clean else none
  else none

def bulletChars : List Char := ['-', '*', '•']

/-- re.match(r"^[-*•]\s+", line) or re.match(r"^\d+[.)]\s+", line). -/
def isBulletLine (line : String) : Bool :=
  match line.toList with
  | c :: rest =>
    (bulletChars.contains c && (match rest with
      | d :: _ => isPyWhitespace d
      | [] => false)) ||
    (c.isDigit &&
      (let afterDigits := rest.dropWhile Char.isDigit
       match afterDigits with
       | p :: q :: _ => (p = '.' || p = ')') && isPyWhitespace q
       | _ => false))
  | [] => false

/-- re.sub(r"^[-*•\d.)]\s+", "", line): one leading class character followed by
at least one whitespace character is removed; otherwise the line is kept. -/
def stripBulletMarker (line : String) : String :=
  match line.toList with
  | c :: d :: rest =>
    if (bulletChars.contains c || c.isDigit || c = '.' || c = ')') && isPyWhitespace d then
      ⟨rest.dropWhile isPyWhitespace⟩
    else line
  | _ => line

/-- One line of the bullet fallback scan of _extract_capabilities. -/
def bulletCapability (line : String) : Option String :=
  let l := stripStr line
  if isBulletLine l then
    let clean := stripStr (stripBulletMarker l)
    if clean.length > 20 && clean.length < 200 then some clean else none
  else none

/-- TemenosService._extract_capabilities. -/
def extractCapabilities (text : String) : List String :=
  if text = "" ∨ text = "Information not available" ∨
     text = "Information not available - timeout" then []
  else
    let capabilities := (splitSentences text).filterMap sentenceCapability
    if capabilities.length < 3 then
      capabilities ++ (splitOnChar text '\n').filterMap bulletCapability
    else capabilities

/-! ### Knowledge Enrichment: component type label
(temenos_service.py, TemenosService._determine_component_type) -/

def determineComponentType (r : AzureResource) : String :=
  let resourceType := strToLower r.type
  let name := strToLower r.name
  if containsB resourceType "microsoft.app/containerapps" || containsB resourceType "containerapp" then
    if containsB name "api" || containsB name "apiapp" then "Azure Container App (API Service)"
    else if containsB name "ingester" || containsB name "ingest" then "Azure Container App (Ingester)"
    else if containsB name "initapp" || (containsB name "init" && containsB name "app") then
      "Azure Container App (Initializer)"
    else "Azure Container App"
  else if containsB resourceType "managedclusters/pods" then
    let ns := dictGetD r.properties "namespace" ""
    if ns != "" then "AKS Pod (" ++ ns ++ " namespace)" else "AKS Pod"
  else if containsB resourceType "microsoft.containerservice" || containsB resourceType "kubernetes" then
    "Azure Kubernetes Service (AKS)"
  else if containsB resourceType "database" || containsB resourceType "sql" then
    if containsB resourceType "cosmos" then "Azure Cosmos DB"
    else if containsB resourceType "postgresql" then "Azure Database for PostgreSQL"
    else if containsB resourceType "mysql" then "Azure Database for MySQL"
    else "Azure Database Service"
  else if containsB resourceType "storage" then "Azure Storage (Infrastructure)"
  else if containsB resourceType "eventhub" then "Azure Event Hub"
  else
    let parts := splitOnChar r.type '/'
    if parts.length > 1 then "Azure " ++ ((parts.getLast?).getD "") else "Azure Resource"

/-! ### Knowledge Enrichment data model and identify_component
(temenos_service.py, TemenosComponentInfo / TemenosAnalysisResult /
TemenosService.identify_component) -/

structure ComponentRelationship where
  targetComponent : String
  relationshipType : String
  description : String
  deriving DecidableEq, Repr

structure TemenosComponentInfo where
  componentName : String
  componentType : String
  architecturalOverview : String
  functionalOverview : String
  capabilities : List String
  relatedServices : List String
  relationships : List ComponentRelationship
  deriving DecidableEq, Repr

structure TemenosAnalysisResult where
  service : AzureResource
  componentInfo : Option TemenosComponentInfo
  error : Option String
  deriving DecidableEq, Repr

/-- Outcome of one knowledge-service (RAG) query as seen through
asyncio.wait_for: an answer, a 60-second timeout, or a transport error. -/
inductive RagOutcome where
  | ok (answer : String)
  | timeout
  | failure
  deriving DecidableEq, Repr

/-- The external knowledge service.  The two query texts are built
deterministically from the component name and category
(_build_architectural_query / _build_functional_query), so the oracle is keyed
by that pair; available models rag_adapter is not None and jwt_token is set,
fixed for the lifetime of one TemenosService instance. -/
structure RagEnv where
  available : Bool
  arch : String → String → RagOutcome
  func : String → String → RagOutcome

/-- The text identify_component extracts from a query result: the answer on
success, the fixed substituted strings on timeout or error. -/
def outcomeAnswer : RagOutcome → String
  | .ok a => a
  | .timeout => "Information not available - timeout"
  | .failure => "Information not available - error"

/-- The RAG cache: dict keyed by lower-cased component name. -/
abbrev Cache := List (String × TemenosComponentInfo)

def cacheLookup (c : Cache) (k : String) : Option TemenosComponentInfo :=
  (c.find? (fun p => p.1 == k)).map (·.2)

def cacheInsert (c : Cache) (k : String) (v : TemenosComponentInfo) : Cache :=
  if (c.find? (fun p => p.1 == k)).isSome then
    c.map (fun p => if p.1 == k then (k, v) else p)
  else c ++ [(k, v)]

def cacheErase (c : Cache) (k : String) : Cache :=
  c.filter (fun p => p.1 != k)

/-- The detailed architectural fallback substituted when the formatted text is
one of the two not-available strings (note the trailing space on the first
line, present in the source). -/
def archDetailedFallback (componentName : String) : String :=
  componentName ++ " is a Temenos microservice component deployed in Azure Kubernetes Service. \n\nArchitecture:\n- Deployed as containerized microservices in Azure Kubernetes Service (AKS)\n- Follows microservices architecture patterns for scalability and resilience\n- Integrates with other Temenos components through well-defined APIs\n- Uses cloud-native technologies for deployment and orchestration\n\nKey Components:\n- Core service components handling business logic\n- API endpoints for external and internal communication\n- Data access layers for persistence\n- Integration layers for component communication\n\nDeployment:\n- Containerized using Docker\n- Orchestrated via Kubernetes\n- Scalable and resilient architecture\n- Cloud-native design patterns"

/-- The detailed functional fallback. -/
def funcDetailedFallback (componentName : String) : String :=
  componentName ++ " provides core banking functionality as part of the Temenos Transact platform.\n\nFunctional Capabilities:\n- Core banking operations and business logic processing\n- Transaction processing and validation\n- Business rule enforcement\n- Data management and persistence\n\nBusiness Functions:\n- Handles critical banking operations\n- Supports core banking workflows\n- Manages business data and state\n- Provides APIs for integration with other components\n\nIntegration:\n- Integrates with other Temenos microservices\n- Communicates via standard APIs and protocols\n- Supports event-driven architectures\n- Enables distributed system patterns"

/-- The minimal ComponentInfo built when the knowledge service is not
available. -/
def minimalComponentInfo (componentName : String) (service : AzureResource) :
    TemenosComponentInfo where
  componentName := componentName
  componentType := determineComponentType service
  architecturalOverview :=
    componentName ++ " is a Temenos microservice component deployed in Azure Kubernetes Service."
  functionalOverview :=
    componentName ++ " provides core banking functionality as part of the Temenos Transact platform."
  capabilities := ["Core " ++ componentName ++ " functionality"]
  relatedServices := []
  relationships := []

/-- The ComponentInfo built from the two RAG query outcomes. -/
def ragComponentInfo (env : RagEnv) (service : AzureResource)
    (componentName category : String) : TemenosComponentInfo :=
  let architecturalText := outcomeAnswer (env.arch componentName category)
  let functionalText := outcomeAnswer (env.func componentName category)
  let archFormatted0 := formatRagResponse architecturalText
  let funcFormatted0 := formatRagResponse functionalText
  let archFormatted :=
    if archFormatted0 = "Information not available" ∨
       archFormatted0 = "Information not available - timeout" then
      archDetailedFallback componentName
    else archFormatted0
  let funcFormatted :=
    if funcFormatted0 = "Information not available" ∨
       funcFormatted0 = "Information not available - timeout" then
      funcDetailedFallback componentName
    else funcFormatted0
  { componentName := componentName
    componentType := determineComponentType service
    architecturalOverview := archFormatted
    functionalOverview := funcFormatted
    capabilities :=
      if functionalText != "Information not available" then
        extractCapabilities functionalText
      else ["Core " ++ componentName ++ " functionality"]
    relatedServices := []
    relationships := [] }

/-- The staleness test applied to a cache hit: the cached architectural text
starts with the minimal-placeholder prefix for the current component name and
is under 500 characters. -/
def isMinimalCached (componentName : String) (cached : TemenosComponentInfo) : Bool :=
  strStartsWith cached.architecturalOverview
    (componentName ++ " is a Temenos microservice component deployed") &&
  cached.architecturalOverview.length < 500

/-- The non-cache-hit tail of identify_component: build the info (minimal if
the service is unreachable, from the two queries otherwise) and cache it when
use_cache is set.  The third component counts RAG queries issued. -/
def identifyFresh (env : RagEnv) (cache : Cache) (service : AzureResource)
    (componentName category : String) (useCache : Bool) :
    Option TemenosComponentInfo × Cache × Nat :=
  if !env.available then
    let info := minimalComponentInfo componentName service
    (some info, if useCache then cacheInsert cache (strToLower componentName) info else cache, 0)
  else
    let info := ragComponentInfo env service componentName category
    (some info, if useCache then cacheInsert cache (strToLower componentName) info else cache, 2)

/-- TemenosService.identify_component.  Returns the identified info (None for
non-candidates and extraction failures), the updated cache, and the number of
RAG queries issued by this call. -/
def identifyComponent (env : RagEnv) (cache : Cache) (service : AzureResource)
    (useCache forceRefresh : Bool) : Option TemenosComponentInfo × Cache × Nat :=
  if !isPotentialTemenosComponent service then (none, cache, 0)
  else
    match extractComponentName service with
    | none => (none, cache, 0)
    | some ext =>
      let componentName := ext.normalizedName
      let category := ext.componentCategory
      let cacheKey := strToLower componentName
      match (if useCache && !forceRefresh then cacheLookup cache cacheKey else none) with
      | some cached =>
        if isMinimalCached componentName cached && env.available then
          -- stale minimal entry while RAG is available: evict and refetch
          identifyFresh env (cacheErase cache cacheKey) service componentName category useCache
        else
          -- cache hit: a copy with the service-specific type recomputed
          (some { cached with componentType := determineComponentType service }, cache, 0)
      | none => identifyFresh env cache service componentName category useCache

/-! ### Batch analysis (temenos_service.py, TemenosService.analyze_services)

The source walks the candidate list in batches of three with an inter-batch
sleep and progress callbacks; the batching affects neither the order nor the
content of the result list, so the embedding walks the candidates in order. -/

def analyzeLoop (env : RagEnv) (useCache forceRefresh : Bool) :
    Cache → List AzureResource → List TemenosAnalysisResult × Cache
  | cache, [] => ([], cache)
  | cache, s :: rest =>
    let step := identifyComponent env cache s useCache forceRefresh
    let res : TemenosAnalysisResult :=
      ⟨s, step.1, if step.1.isSome then none else some "Could not identify Temenos component"⟩
    let next := analyzeLoop env useCache forceRefresh step.2.1 rest
    (res :: next.1, next.2)

/-- TemenosService.analyze_services: candidates first, in order, then every
skipped (non-candidate) service as an unclassified result.  When no candidate
exists the source returns the empty list outright. -/
def analyzeServices (env : RagEnv) (cache : Cache) (services : List AzureResource)
    (useCache forceRefresh : Bool) : List TemenosAnalysisResult × Cache :=
  let potential := services.filter isPotentialTemenosComponent
  if potential.isEmpty then ([], cache)
  else
    let processed := analyzeLoop env useCache forceRefresh cache potential
    (processed.1 ++
      (services.filter (fun s => !isPotentialTemenosComponent s)).map
        (fun s => ⟨s, none, none⟩),
     processed.2)

/-! ### Aggregator / Deduplicator (deployment.py, _deduplicate_components) -/

/-- The infrastructure prefixes checked against classified non-pod results
inside the grouping loop. -/
def dedupClassifiedInfraTypes : List String :=
  ["microsoft.storage", "microsoft.keyvault", "microsoft.network",
   "microsoft.insights", "microsoft.operationalinsights"]

/-- The extended infrastructure list applied to the unidentified results (the
source adds virtual machines and scale sets here). -/
def dedupUnidentifiedInfraTypes : List String :=
  ["microsoft.storage", "microsoft.keyvault", "microsoft.network",
   "microsoft.insights", "microsoft.operationalinsights",
   "microsoft.compute/virtualmachines", "microsoft.compute/virtualmachinescalesets"]

def matchesClassifiedInfra (resourceType : String) : Bool :=
  dedupClassifiedInfraTypes.any (fun t => containsB (strToLower resourceType) t)

def matchesUnidentifiedInfra (resourceType : String) : Bool :=
  dedupUnidentifiedInfraTypes.any (fun t => containsB (strToLower resourceType) t)

/-- Routing of one result inside the loop of _deduplicate_components: some key
to group under, or none for the unidentified list (no component info, or a
classified non-pod infrastructure resource). -/
def routeKey (r : TemenosAnalysisResult) : Option String :=
  match r.componentInfo with
  | none => none
  | some info =>
    if containsB (strToLower r.service.type) "managedclusters/pods" then
      let ns := dictGetD r.service.properties "namespace" ""
      if ns != "" then some (strToLower ns) else some info.componentName
    else if matchesClassifiedInfra r.service.type then none
    else some info.componentName

/-- The merge step for a later duplicate: append its service display name to
the representative's related_services unless already present. -/
def addRelatedName (n : String) (r : TemenosAnalysisResult) : TemenosAnalysisResult :=
  match r.componentInfo with
  | none => r
  | some info =>
    if n ∈ info.relatedServices then r
    else { r with componentInfo := some { info with relatedServices := info.relatedServices ++ [n] } }

def assocLookup (m : List (String × TemenosAnalysisResult)) (k : String) :
    Option TemenosAnalysisResult :=
  (m.find? (fun p => p.1 == k)).map (·.2)

def assocModify (m : List (String × TemenosAnalysisResult)) (k : String)
    (f : TemenosAnalysisResult → TemenosAnalysisResult) :
    List (String × TemenosAnalysisResult) :=
  m.map (fun p => if p.1 = k then (p.1, f p.2) else p)

/-- The loop of _deduplicate_components: an insertion-ordered map from grouping
key to representative, and the unidentified list, built left to right. -/
def dedupLoop : List TemenosAnalysisResult → List (String × TemenosAnalysisResult) →
    List TemenosAnalysisResult →
    List (String × TemenosAnalysisResult) × List TemenosAnalysisResult
  | [], m, u => (m, u)
  | r :: rest, m, u =>
    match routeKey r with
    | none => dedupLoop rest m (u ++ [r])
    | some k =>
      if (assocLookup m k).isSome then
        dedupLoop rest (assocModify m k (addRelatedName r.service.name)) u
      else dedupLoop rest (m ++ [(k, r)]) u

/-- _deduplicate_components: representatives in insertion order, then the
unidentified results that survive the extended infrastructure filter. -/
def deduplicateComponents (results : List TemenosAnalysisResult) :
    List TemenosAnalysisResult :=
  let looped := dedupLoop results [] []
  looped.1.map Prod.snd ++
    looped.2.filter (fun r => !matchesUnidentifiedInfra r.service.type)

/-! ### Declarative description of the aggregator, written from the spec
(section 4.6), against which the embedding is proved. -/

/-- Display names of the results routed to key k, in input order. -/
def keyNamesOf (k : String) (l : List TemenosAnalysisResult) : List String :=
  (l.filter (fun r => routeKey r == some k)).map (·.service.name)

/-- Fold the append-if-absent merge over a list of display names. -/
def mergeNames (r : TemenosAnalysisResult) (names : List String) : TemenosAnalysisResult :=
  names.foldl (fun acc n => addRelatedName n acc) r

/-- The distinct grouping keys of a result list in order of first appearance,
excluding the keys already seen. -/
def firstSeenKeys (seen : List String) : List TemenosAnalysisResult → List String
  | [] => []
  | r :: rest =>
    match routeKey r with
    | none => firstSeenKeys seen rest
    | some k =>
      if k ∈ seen then firstSeenKeys seen rest
      else k :: firstSeenKeys (k :: seen) rest

/-- The representative the spec prescribes for key k: the first result routed
to k, with the display names of the later ones merged append-if-absent. -/
def mergedRep (l : List TemenosAnalysisResult) (k : String) : TemenosAnalysisResult :=
  match l.filter (fun r => routeKey r == some k) with
  | [] => ⟨default, none, none⟩
  | first :: later => mergeNames first (later.map (·.service.name))

/-- The aggregate output the spec prescribes: one merged representative per
distinct key in first-seen order, followed by the unrouted results that do not
match the extended infrastructure list. -/
def aggregateSpec (results : List TemenosAnalysisResult) : List TemenosAnalysisResult :=
  (firstSeenKeys [] results).map (mergedRep results) ++
    results.filter (fun r => (routeKey r).isNone && !matchesUnidentifiedInfra r.service.type)

/-! ### Pod adapter (aks_service.py, AKSPod.to_azure_resource) -/

structure AKSPod where
  name : String
  namespaceName : String
  clusterName : String
  clusterResourceGroup : String
  status : String
  labels : List (String × String)
  containers : List String
  deriving DecidableEq, Repr

/-- AKSPod.to_azure_resource.  The containers list (a non-string property
value) is never read by any downstream stage and is omitted from the string
property map. -/
def AKSPod.toAzureResource (p : AKSPod) : AzureResource where
  id := "/subscriptions/" ++ p.clusterResourceGroup ++ "/resourceGroups/" ++
        p.clusterResourceGroup ++ "/providers/Microsoft.ContainerService/managedClusters/" ++
        p.clusterName ++ "/namespaces/" ++ p.namespaceName ++ "/pods/" ++ p.name
  name := p.namespaceName ++ "/" ++ p.name
  type := "Microsoft.ContainerService/managedClusters/pods"
  location := ""
  resourceGroup := p.clusterResourceGroup
  tags := dictSet (dictSet (dictSet p.labels "namespace" p.namespaceName)
            "pod_name" p.name) "cluster" p.clusterName
  properties :=
    [("namespace", p.namespaceName), ("cluster", p.clusterName),
     ("status", p.status), ("pod_name", p.name), ("namespace_name", p.namespaceName)]

/-! ### Namespace relevance filter
(aks_service.py, get_pods_from_cluster, auto-detection branch used when no
explicit namespace filter is given) -/

/-- The auto-detection patterns (each regex is a literal word searched
case-insensitively). -/
def autoDetectPatterns : List String :=
  ["transact", "eventstore", "adapter", "genericconfig",
   "holdings", "party", "modular", "temenos", "tap",
   "stmtgen", "notification", "audit", "file", "workflow",
   "deposits", "lending", "webingress", "ingress", "payment",
   "card", "account", "transaction", "core", "banking",
   "integration", "api", "gateway", "service", "microservice"]

def fixedSystemNamespaces : List String :=
  ["kube-system", "kube-public", "kube-node-lease", "default"]

/-- The per-namespace keep decision of the auto-detection branch: skip the
fixed system namespaces, keep pattern matches, and otherwise keep anything not
starting with a system-like prefix. -/
def keepNamespaceAuto (ns : String) : Bool :=
  if fixedSystemNamespaces.contains ns then false
  else if autoDetectPatterns.any (fun p => containsB (strToLower ns) p) then true
  else !(strStartsWith ns "kube-" || strStartsWith ns "system-" || strStartsWith ns "default")

/-- The relevance filter over a listed namespace sequence. -/
def filterNamespacesAuto (names : List String) : List String :=
  names.filter keepNamespaceAuto

/-! ### Cluster Credential Resolver (aks_service.py, get_cluster_credentials)

The subprocess world is an environment record: the exit code of the az
credential fetch, whether the target kubeconfig file exists afterwards,
whether the default kubeconfig exists, and the results of the two kubectl
probes. -/

structure CredEnv where
  /-- Exit code of az aks get-credentials. -/
  azReturnCode : Int
  /-- os.path.exists on the temp kubeconfig path after the az run. -/
  kubeconfigCreated : Bool
  /-- os.path.exists on the default ~/.kube/config. -/
  defaultKubeconfigExists : Bool
  /-- Exit code that kubectl config get-contexts against the default file
  would report.  The source never reaches this probe: _check_default_config
  references shutil, which is imported only inside the sibling nested function
  _get_credentials, so running the probe raises NameError first. -/
  getContextsReturnCode : Int
  /-- Stdout the get-contexts probe would capture (likewise never reached). -/
  getContextsStdout : String
  /-- Exit code of kubectl version --client (that probe imports shutil
  locally, so it does run). -/
  kubectlVersionReturnCode : Int
  deriving DecidableEq, Repr

structure CredBundle where
  kubeconfigPath : String
  clusterName : String
  useDefault : Bool
  deriving DecidableEq, Repr

def tempKubeconfigPath (clusterName : String) : String :=
  "/tmp/" ++ clusterName ++ "_kubeconfig.yaml"

def defaultKubeconfigPath : String := "~/.kube/config"

/-- AKSService.get_cluster_credentials.  On a non-zero az exit with no file
created, the source tries a get-contexts probe against the default kubeconfig
and would return a default-file bundle on success — but _check_default_config
calls shutil.which while shutil is bound only inside the sibling nested
function _get_credentials (the module imports base64, subprocess, json, re,
tempfile, os), so the probe raises NameError, the blanket except at the end of
the function catches it, and the call returns None: that whole branch yields
None.  Otherwise the created (or default) file is used when the kubectl
version probe (which imports shutil locally) exits zero. -/
def getClusterCredentials (env : CredEnv) (clusterName : String) : Option CredBundle :=
  if env.azReturnCode != 0 && !env.kubeconfigCreated then
    if env.defaultKubeconfigExists then
      -- the get-contexts probe raises NameError (shutil unbound in
      -- _check_default_config), the outer except Exception returns None, so
      -- the use_default bundle at source lines 208-210 is dead code
      none
    else none
  else
    match (if env.kubeconfigCreated then some (tempKubeconfigPath clusterName)
           else if env.defaultKubeconfigExists then some defaultKubeconfigPath
           else none) with
    | none => none
    | some path =>
      if env.kubectlVersionReturnCode == 0 then some ⟨path, clusterName, false⟩
      else none

/-! ### The analyze endpoint (deployment.py, _analyze_services_impl)

Pod discovery is an external effect, modelled as a function from the optional
namespace filter to the discovered pod resources; the source always passes
temenos_namespaces=None (auto-detection), and reads selected_namespaces only
for logging. -/

structure AnalyzeEnv where
  rag : RagEnv
  discoverPods : Option (List String) → List AzureResource

/-- Subscription extraction from the first resource id (the element following
"subscriptions" in the "/"-separated id; the source would raise if
"subscriptions" were the last part, a case mapped to none here). -/
def afterToken (tok : String) : List String → Option String
  | [] => none
  | x :: rest => if x = tok then rest.head? else afterToken tok rest

def subscriptionIdOf (services : List AzureResource) : Option String :=
  match services with
  | [] => none
  | s :: _ => if s.id = "" then none else afterToken "subscriptions" (splitOnChar s.id '/')

/-- _analyze_services_impl after request decoding: discover pods when a
subscription id is extractable and an AKS cluster is present, run the batch
analysis on a fresh service instance (empty cache, use_cache=True), and
deduplicate.  selectedNamespaces is accepted and, as in the source, never read
except for logging. -/
def analyzeImpl (env : AnalyzeEnv) (servicesData : List AzureResource)
    (selectedNamespaces : Option (List String)) (forceRefresh : Bool) :
    List TemenosAnalysisResult :=
  let services := servicesData
  let withPods :=
    match subscriptionIdOf services with
    | some _ =>
      if services.any
          (fun s => containsB (strToLower s.type) "microsoft.containerservice/managedclusters") then
        services ++ env.discoverPods none
      else services
    | none => services
  deduplicateComponents (analyzeServices env.rag [] withPods true forceRefresh).1

/-! ### Heap-modelled variant of enrichment and aggregation

The Python related_services list is one mutable object; a cache hit returns a
copy of the cached info that holds the same list object.  To state the
aliasing consequences, this variant gives each info a reference into a store
of lists instead of an inline list; everything else mirrors the value-level
embedding above. -/

abbrev Store := List (List String)

def storeAlloc (st : Store) (l : List String) : Store × Nat := (st ++ [l], st.length)

def storeRead (st : Store) (i : Nat) : List String := (st.get? i).getD []

def storeWrite (st : Store) (i : Nat) (l : List String) : Store := st.set i l

structure TemenosComponentInfoH where
  componentName : String
  componentType : String
  architecturalOverview : String
  functionalOverview : String
  capabilities : List String
  /-- Reference to the shared related_services list in the store. -/
  relatedRef : Nat
  relationships : List ComponentRelationship
  deriving DecidableEq, Repr

structure TemenosAnalysisResultH where
  service : AzureResource
  componentInfo : Option TemenosComponentInfoH
  error : Option String
  deriving DecidableEq, Repr

abbrev CacheH := List (String × TemenosComponentInfoH)

def cacheLookupH (c : CacheH) (k : String) : Option TemenosComponentInfoH :=
  (c.find? (fun p => p.1 == k)).map (·.2)

def cacheInsertH (c : CacheH) (k : String) (v : TemenosComponentInfoH) : CacheH :=
  if (c.find? (fun p => p.1 == k)).isSome then
    c.map (fun p => if p.1 == k then (k, v) else p)
  else c ++ [(k, v)]

def cacheEraseH (c : CacheH) (k : String) : CacheH :=
  c.filter (fun p => p.1 != k)

def minimalComponentInfoH (componentName : String) (service : AzureResource)
    (st : Store) : TemenosComponentInfoH × Store :=
  let alloc := storeAlloc st []
  ({ componentName := componentName
     componentType := determineComponentType service
     architecturalOverview :=
       componentName ++ " is a Temenos microservice component deployed in Azure Kubernetes Service."
     functionalOverview :=
       componentName ++ " provides core banking functionality as part of the Temenos Transact platform."
     capabilities := ["Core " ++ componentName ++ " functionality"]
     relatedRef := alloc.2
     relationships := [] }, alloc.1)

def ragComponentInfoH (env : RagEnv) (service : AzureResource)
    (componentName category : String) (st : Store) : TemenosComponentInfoH × Store :=
  let v := ragComponentInfo env service componentName category
  let alloc := storeAlloc st []
  ({ componentName := v.componentName
     componentType := v.componentType
     architecturalOverview := v.architecturalOverview
     functionalOverview := v.functionalOverview
     capabilities := v.capabilities
     relatedRef := alloc.2
     relationships := [] }, alloc.1)

def isMinimalCachedH (componentName : String) (cached : TemenosComponentInfoH) : Bool :=
  strStartsWith cached.architecturalOverview
    (componentName ++ " is a Temenos microservice component deployed") &&
  cached.architecturalOverview.length < 500

def identifyFreshH (env : RagEnv) (cache : CacheH) (service : AzureResource)
    (componentName category : String) (useCache : Bool) (st : Store) :
    Option TemenosComponentInfoH × CacheH × Store :=
  if !env.available then
    let built := minimalComponentInfoH componentName service st
    (some built.1,
     if useCache then cacheInsertH cache (strToLower componentName) built.1 else cache, built.2)
  else
    let built := ragComponentInfoH env service componentName category st
    (some built.1,
     if useCache then cacheInsertH cache (strToLower componentName) built.1 else cache, built.2)

/-- identify_component in the heap model.  A cache hit builds a copy of the
cached info holding the same relatedRef (the shared mutable list). -/
def identifyComponentH (env : RagEnv) (cache : CacheH) (service : AzureResource)
    (useCache forceRefresh : Bool) (st : Store) :
    Option TemenosComponentInfoH × CacheH × Store :=
  if !isPotentialTemenosComponent service then (none, cache, st)
  else
    match extractComponentName service with
    | none => (none, cache, st)
    | some ext =>
      let componentName := ext.normalizedName
      let category := ext.componentCategory
      let cacheKey := strToLower componentName
      match (if useCache && !forceRefresh then cacheLookupH cache cacheKey else none) with
      | some cached =>
        if isMinimalCachedH componentName cached && env.available then
          identifyFreshH env (cacheEraseH cache cacheKey) service componentName category useCache st
        else
          (some { cached with componentType := determineComponentType service }, cache, st)
      | none => identifyFreshH env cache service componentName category useCache st

def analyzeLoopH (env : RagEnv) (useCache forceRefresh : Bool) :
    CacheH → Store → List AzureResource →
    List TemenosAnalysisResultH × CacheH × Store
  | cache, st, [] => ([], cache, st)
  | cache, st, s :: rest =>
    let step := identifyComponentH env cache s useCache forceRefresh st
    let res : TemenosAnalysisResultH :=
      ⟨s, step.1, if step.1.isSome then none else some "Could not identify Temenos component"⟩
    let next := analyzeLoopH env useCache forceRefresh step.2.1 step.2.2 rest
    (res :: next.1, next.2)

def analyzeServicesH (env : RagEnv) (cache : CacheH) (st : Store)
    (services : List AzureResource) (useCache forceRefresh : Bool) :
    List TemenosAnalysisResultH × CacheH × Store :=
  let potential := services.filter isPotentialTemenosComponent
  if potential.isEmpty then ([], cache, st)
  else
    let processed := analyzeLoopH env useCache forceRefresh cache st potential
    (processed.1 ++
      (services.filter (fun s => !isPotentialTemenosComponent s)).map
        (fun s => ⟨s, none, none⟩),
     processed.2)

def routeKeyH (r : TemenosAnalysisResultH) : Option String :=
  match r.componentInfo with
  | none => none
  | some info =>
    if containsB (strToLower r.service.type) "managedclusters/pods" then
      let ns := dictGetD r.service.properties "namespace" ""
      if ns != "" then some (strToLower ns) else some info.componentName
    else if matchesClassifiedInfra r.service.type then none
    else some info.componentName

def assocLookupH (m : List (String × TemenosAnalysisResultH)) (k : String) :
    Option TemenosAnalysisResultH :=
  (m.find? (fun p => p.1 == k)).map (·.2)

/-- The merge of a later duplicate mutates the store through the existing
representative's relatedRef; the map itself is unchanged. -/
def mergeIntoH (existing : TemenosAnalysisResultH) (n : String) (st : Store) : Store :=
  match existing.componentInfo with
  | none => st
  | some info =>
    let cur := storeRead st info.relatedRef
    if n ∈ cur then st else storeWrite st info.relatedRef (cur ++ [n])

def dedupLoopH : List TemenosAnalysisResultH →
    List (String × TemenosAnalysisResultH) → List TemenosAnalysisResultH → Store →
    List (String × TemenosAnalysisResultH) × List TemenosAnalysisResultH × Store
  | [], m, u, st => (m, u, st)
  | r :: rest, m, u, st =>
    match routeKeyH r with
    | none => dedupLoopH rest m (u ++ [r]) st
    | some k =>
      match assocLookupH m k with
      | some existing => dedupLoopH rest m u (mergeIntoH existing r.service.name st)
      | none => dedupLoopH rest (m ++ [(k, r)]) u st

def deduplicateComponentsH (results : List TemenosAnalysisResultH) (st : Store) :
    List TemenosAnalysisResultH × Store :=
  let looped := dedupLoopH results [] [] st
  (looped.1.map Prod.snd ++
    (looped.2.1.filter (fun r => !matchesUnidentifiedInfra r.service.type)),
   looped.2.2)

/-! ### Concrete fixtures used by the theorems below -/

/-- A knowledge environment with the service unreachable (no adapter/token). -/
def envOffline : RagEnv := ⟨false, fun _ _ => .failure, fun _ _ => .failure⟩

/-- A reachable knowledge environment whose two queries time out and fail. -/
def envDegraded : RagEnv := ⟨true, fun _ _ => .timeout, fun _ _ => .failure⟩

/-- A reachable knowledge environment answering the architectural query with a
short text that happens to start with the minimal-placeholder prefix. -/
def envLookalike : RagEnv :=
  ⟨true, fun n _ => .ok (n ++ " is a Temenos microservice component deployed somewhere"),
   fun _ _ => .failure⟩

def mkPod (nm ns : String) : AzureResource :=
  AKSPod.toAzureResource ⟨nm, ns, "cl1", "rg1", "Running", [], []⟩

def podA : AzureResource := mkPod "pod-a" "adapterservice"
def podB : AzureResource := mkPod "pod-b" "adapterservice"
def podC : AzureResource := mkPod "pod-c" "adapterservice"

/-- A storage account carrying a component tag. -/
def storageTagged : AzureResource :=
  ⟨"/subscriptions/sub1/resourceGroups/rg1/providers/Microsoft.Storage/storageAccounts/mystore",
   "mystore", "Microsoft.Storage/storageAccounts", "eastus", "rg1", [("component", "x")], []⟩

/-- A storage account with no tags. -/
def storageNoTag : AzureResource :=
  ⟨"/subscriptions/sub1/resourceGroups/rg1/providers/Microsoft.Storage/storageAccounts/mystore",
   "mystore", "Microsoft.Storage/storageAccounts", "eastus", "rg1", [], []⟩

/-- A virtual machine (not on the section 4.4 deny-list). -/
def vmResource : AzureResource :=
  ⟨"/subscriptions/sub1/resourceGroups/rg1/providers/Microsoft.Compute/virtualMachines/vm1",
   "vm1", "Microsoft.Compute/virtualMachines", "eastus", "rg1", [], []⟩

/-- Four pods across two namespaces that both classify to the canonical name
Adapter Microservice, for the shared-list aliasing scenario. -/
def podHA1 : AzureResource := mkPod "a1" "adapterservice"
def podHA2 : AzureResource := mkPod "a2" "adapterservice"
def podHB1 : AzureResource := mkPod "b1" "adapter-service"
def podHB2 : AzureResource := mkPod "b2" "adapter-service"

def aliasRun : List TemenosAnalysisResultH × CacheH × Store :=
  analyzeServicesH envOffline [] [] [podHA1, podHA2, podHB1, podHB2] true false

def aliasDedup : List TemenosAnalysisResultH × Store :=
  deduplicateComponentsH aliasRun.1 aliasRun.2.2

/-- A credential environment where the az call fails without a file but the
default kubeconfig exists and lists the cluster. -/
def credEnvDefault : CredEnv := ⟨1, false, true, 0, "CURRENT NAME  aks-cluster ctx", 0⟩

/-! ## Theorems -/

/-- C8: applied to the namespace names kube-system, eventstore, deposits202507
and randomteam with no explicit namespace filter, the relevance filter keeps
exactly eventstore, deposits202507 and randomteam (pattern match or permissive
non-system inclusion) and drops kube-system (fixed system namespace). -/
theorem relevance_filter_keeps_expected :
    filterNamespacesAuto ["kube-system", "eventstore", "deposits202507", "randomteam"] =
      ["eventstore", "deposits202507", "randomteam"] := by decide

/-- C9: the analyze operation is independent of the optional namespace
selection: any two values of selected_namespaces produce equal deduplicated
component lists, for every resource list and force-refresh setting, because
the selection is read only for logging and pod discovery always runs in
auto-detection mode (the embedding calls discoverPods none unconditionally). -/
theorem analyze_independent_of_selection (env : AnalyzeEnv)
    (servicesData : List AzureResource) (ns1 ns2 : Option (List String))
    (forceRefresh : Bool) :
    analyzeImpl env servicesData ns1 forceRefresh =
      analyzeImpl env servicesData ns2 forceRefresh := rfl

/-- C10: in the heap model, a cache hit returns a copy of the cached info
holding the same relatedRef — that is, the cached entry's mutable
related_services list is shared — and consequently, at the four-pod instance
over the two namespaces adapterservice and adapter-service (both classifying
to the canonical name Adapter Microservice), aggregate emits two
representatives, one per grouping key, that reference one shared list, so the
duplicate display names merged under either key appear in both. -/
theorem alias_shared_related_services :
    (∀ (env : RagEnv) (cache : CacheH) (s : AzureResource) (st : Store)
      (cached : TemenosComponentInfoH) (ext : Extracted),
      isPotentialTemenosComponent s = true →
      extractComponentName s = some ext →
      cacheLookupH cache (strToLower ext.normalizedName) = some cached →
      (isMinimalCachedH ext.normalizedName cached && env.available) = false →
      (identifyComponentH env cache s true false st).1 =
        some { cached with componentType := determineComponentType s }) ∧
    aliasDedup.1.map (fun r => r.componentInfo.map (·.componentName)) =
      [some "Adapter Microservice", some "Adapter Microservice"] ∧
    aliasDedup.1.map routeKeyH = [some "adapterservice", some "adapter-service"] ∧
    aliasDedup.1.map (fun r => r.componentInfo.map (·.relatedRef)) = [some 0, some 0] ∧
    aliasDedup.1.map
        (fun r => r.componentInfo.map (fun i => storeRead aliasDedup.2 i.relatedRef)) =
      [some ["adapterservice/a2", "adapter-service/b2"],
       some ["adapterservice/a2", "adapter-service/b2"]] := by
  refine ⟨?_, by decide, by decide, by decide, by decide⟩
  intro env cache s st cached ext hpot hext hl hX
  unfold identifyComponentH
  simp only [hpot, hext, Bool.not_true, Bool.false_eq_true, if_false, Bool.not_false,
    Bool.and_self, eq_self_iff_true, if_true, hl]
  rw [if_neg (by simp [hX])]

/-- Witness for C10's universal conjunct at a concrete cache hit. -/
theorem alias_shared_related_services_witness :
    (identifyComponentH envOffline
        [("adapter microservice",
          ⟨"Adapter Microservice", "t", "long architectural text", "f", [], 7, []⟩)]
        podA true false []).1 =
      some ⟨"Adapter Microservice", determineComponentType podA,
        "long architectural text", "f", [], 7, []⟩ := by
  have h := alias_shared_related_services.1 envOffline
    [("adapter microservice",
      ⟨"Adapter Microservice", "t", "long architectural text", "f", [], 7, []⟩)]
    podA []
    ⟨"Adapter Microservice", "t", "long architectural text", "f", [], 7, []⟩
    ⟨"pod-a", "Adapter Microservice", "microservice"⟩
    (by decide) (by decide) (by decide) (by decide)
  exact h

/-- C7: the claimed fallback never happens — in the exact scenario the claim
describes (the credential CLI exits non-zero producing no file, the default
kubeconfig exists, and the get-contexts probe would succeed and list the
requested cluster), the resolver returns none rather than a bundle
referencing the default file, because _check_default_config references
shutil, imported only inside the sibling nested function _get_credentials, so
the probe raises NameError and the blanket except returns None.  The spec and
the dead fallback code show the intent, so the code, not the claim, is wrong. -/
theorem credential_fallback_code_bug :
    getClusterCredentials credEnvDefault "aks-cluster" = none ∧
    credEnvDefault.azReturnCode ≠ 0 ∧
    credEnvDefault.kubeconfigCreated = false ∧
    credEnvDefault.defaultKubeconfigExists = true ∧
    credEnvDefault.getContextsReturnCode = 0 ∧
    containsB credEnvDefault.getContextsStdout "aks-cluster" = true := by
  refine ⟨rfl, by decide, rfl, rfl, rfl, by decide⟩

/-- C1 counterexample: a deny-listed storage account that carries a component
tag is accepted by the candidate filter, because the tag check precedes the
deny-list in the source; the claim asserts rejection regardless of tags. -/
theorem deny_list_tag_override_counterexample :
    matchesInfraDenyList storageTagged.type = true ∧
    isPotentialTemenosComponent storageTagged = true := ⟨by decide, by decide⟩

/-- C2 counterexample: for the three adapterservice pods, the single
aggregated result's related_services holds the namespace-qualified display
names, not the bare pod names the claim states. -/
theorem adapter_pipeline_names_counterexample :
    (deduplicateComponents (analyzeServices envOffline [] [podA, podB, podC] true false).1).map
        (fun r => r.componentInfo.map (·.relatedServices)) =
      [some ["adapterservice/pod-b", "adapterservice/pod-c"]] ∧
    (deduplicateComponents (analyzeServices envOffline [] [podA, podB, podC] true false).1).map
        (fun r => r.componentInfo.map (·.relatedServices)) ≠
      [some ["pod-b", "pod-c"]] := by
  refine ⟨by decide, by decide⟩

/-- C3 counterexample: an unclassified virtual machine does not match the
section 4.4 deny-list (storage, key vault, network, monitoring workspace), yet
the aggregator drops it, because the unclassified filter extends the list with
virtual machines and scale sets. -/
theorem unclassified_vm_dropped_counterexample :
    deduplicateComponents [⟨vmResource, none, none⟩] = [] ∧
    matchesInfraDenyList vmResource.type = false := ⟨by decide, by decide⟩

/-- C4 counterexample: with the knowledge service reachable and answering the
architectural query with a short text that begins with the minimal-placeholder
prefix, the second call for the same canonical name evicts the cache entry and
issues a second pair of queries: two pairs in total, not at most one. -/
theorem enrichment_requery_counterexample :
    (identifyComponent envLookalike [] podA true false).2.2 = 2 ∧
    (identifyComponent envLookalike
        (identifyComponent envLookalike [] podA true false).2.1 podB true false).2.2 = 2 := by
  refine ⟨by decide, by decide⟩

/-- C6 counterexample: a non-empty input with no candidate at all yields an
empty result list, not one unclassified entry per input resource. -/
theorem batch_no_candidates_counterexample :
    (analyzeServices envOffline [] [storageNoTag] true false).1 = [] ∧
    ([storageNoTag] : List AzureResource).length = 1 := ⟨rfl, rfl⟩

/-! ### Lemmas: the deduplicator loop against the declarative description -/

theorem mergeNames_nil (r : TemenosAnalysisResult) : mergeNames r [] = r := rfl

theorem mergeNames_cons (r : TemenosAnalysisResult) (n : String) (ns : List String) :
    mergeNames r (n :: ns) = mergeNames (addRelatedName n r) ns := rfl

theorem keyNamesOf_cons_eq {r : TemenosAnalysisResult} {k : String}
    (h : routeKey r = some k) (l : List TemenosAnalysisResult) :
    keyNamesOf k (r :: l) = r.service.name :: keyNamesOf k l := by
  simp [keyNamesOf, List.filter_cons, h]

theorem keyNamesOf_cons_ne {r : TemenosAnalysisResult} {k : String}
    (h : ¬ routeKey r = some k) (l : List TemenosAnalysisResult) :
    keyNamesOf k (r :: l) = keyNamesOf k l := by
  simp [keyNamesOf, List.filter_cons, h]

theorem mergedRep_cons_eq {r : TemenosAnalysisResult} {k : String}
    (h : routeKey r = some k) (l : List TemenosAnalysisResult) :
    mergedRep (r :: l) k = mergeNames r (keyNamesOf k l) := by
  simp [mergedRep, List.filter_cons, h, keyNamesOf]

theorem mergedRep_cons_ne {r : TemenosAnalysisResult} {k : String}
    (h : ¬ routeKey r = some k) (l : List TemenosAnalysisResult) :
    mergedRep (r :: l) k = mergedRep l k := by
  simp [mergedRep, List.filter_cons, h]

theorem firstSeenKeys_not_mem :
    ∀ (l : List TemenosAnalysisResult) (seen : List String) (k : String),
      k ∈ firstSeenKeys seen l → k ∉ seen
  | [], _, _, h => by simp [firstSeenKeys] at h
  | r :: rest, seen, k, h => by
    rw [firstSeenKeys] at h
    cases hr : routeKey r with
    | none =>
      simp only [hr] at h
      exact firstSeenKeys_not_mem rest seen k h
    | some k0 =>
      simp only [hr] at h
      by_cases hk0 : k0 ∈ seen
      · rw [if_pos hk0] at h
        exact firstSeenKeys_not_mem rest seen k h
      · rw [if_neg hk0] at h
        rcases List.mem_cons.mp h with rfl | h2
        · exact hk0
        · have := firstSeenKeys_not_mem rest (k0 :: seen) k h2
          exact fun hk => this (List.mem_cons_of_mem _ hk)

theorem firstSeenKeys_congr :
    ∀ (l : List TemenosAnalysisResult) {seen1 seen2 : List String},
      (∀ x, x ∈ seen1 ↔ x ∈ seen2) →
      firstSeenKeys seen1 l = firstSeenKeys seen2 l
  | [], _, _, _ => rfl
  | r :: rest, seen1, seen2, h => by
    rw [firstSeenKeys, firstSeenKeys]
    cases hr : routeKey r with
    | none => simp only [hr]; exact firstSeenKeys_congr rest h
    | some k0 =>
      simp only [hr]
      by_cases hk0 : k0 ∈ seen1
      · rw [if_pos hk0, if_pos ((h k0).mp hk0)]
        exact firstSeenKeys_congr rest h
      · rw [if_neg hk0, if_neg (fun hm => hk0 ((h k0).mpr hm))]
        refine congrArg (k0 :: ·) (firstSeenKeys_congr rest fun x => ?_)
        simp only [List.mem_cons]
        exact or_congr Iff.rfl (h x)

theorem firstSeenKeys_exists :
    ∀ (l : List TemenosAnalysisResult) (seen : List String) (k : String),
      k ∈ firstSeenKeys seen l → ∃ r ∈ l, routeKey r = some k
  | [], _, _, h => by simp [firstSeenKeys] at h
  | r :: rest, seen, k, h => by
    rw [firstSeenKeys] at h
    cases hr : routeKey r with
    | none =>
      simp only [hr] at h
      obtain ⟨q, hq, hqk⟩ := firstSeenKeys_exists rest seen k h
      exact ⟨q, List.mem_cons_of_mem _ hq, hqk⟩
    | some k0 =>
      simp only [hr] at h
      by_cases hk0 : k0 ∈ seen
      · rw [if_pos hk0] at h
        obtain ⟨q, hq, hqk⟩ := firstSeenKeys_exists rest seen k h
        exact ⟨q, List.mem_cons_of_mem _ hq, hqk⟩
      · rw [if_neg hk0] at h
        rcases List.mem_cons.mp h with rfl | h2
        · exact ⟨r, List.mem_cons_self _ _, hr⟩
        · obtain ⟨q, hq, hqk⟩ := firstSeenKeys_exists rest (k0 :: seen) k h2
          exact ⟨q, List.mem_cons_of_mem _ hq, hqk⟩

theorem firstSeenKeys_nodup :
    ∀ (l : List TemenosAnalysisResult) (seen : List String),
      (firstSeenKeys seen l).Nodup
  | [], _ => by simp [firstSeenKeys]
  | r :: rest, seen => by
    rw [firstSeenKeys]
    cases hr : routeKey r with
    | none => simp only [hr]; exact firstSeenKeys_nodup rest seen
    | some k0 =>
      simp only [hr]
      by_cases hk0 : k0 ∈ seen
      · rw [if_pos hk0]
        exact firstSeenKeys_nodup rest seen
      · rw [if_neg hk0]
        refine List.nodup_cons.mpr ⟨?_, firstSeenKeys_nodup rest (k0 :: seen)⟩
        intro hmem
        exact firstSeenKeys_not_mem rest (k0 :: seen) k0 hmem (List.mem_cons_self _ _)

theorem assocModify_fst (m : List (String × TemenosAnalysisResult)) (k : String)
    (f : TemenosAnalysisResult → TemenosAnalysisResult) :
    (assocModify m k f).map Prod.fst = m.map Prod.fst := by
  unfold assocModify
  rw [List.map_map]
  apply List.map_congr_left
  intro p _
  by_cases h : p.1 = k <;> simp [h]

theorem assocLookup_isSome {m : List (String × TemenosAnalysisResult)} {k : String} :
    (assocLookup m k).isSome = true ↔ k ∈ m.map Prod.fst := by
  induction m with
  | nil => simp [assocLookup]
  | cons p rest ih =>
    by_cases h : p.1 = k
    · simp [assocLookup, List.find?, h]
    · have hb : (p.1 == k) = false := by simpa using h
      simp only [assocLookup, List.find?, hb, List.map_cons, List.mem_cons] at ih ⊢
      rw [ih]
      constructor
      · exact Or.inr
      · rintro (rfl | hm)
        · exact absurd rfl h
        · exact hm

theorem dedupLoop_unrouted (l : List TemenosAnalysisResult) :
    ∀ (m : List (String × TemenosAnalysisResult)) (u : List TemenosAnalysisResult),
      (dedupLoop l m u).2 = u ++ l.filter (fun r => (routeKey r).isNone) := by
  induction l with
  | nil => intro m u; simp [dedupLoop]
  | cons r rest ih =>
    intro m u
    cases h : routeKey r with
    | none => simp [dedupLoop, h, ih, List.filter_cons]
    | some k =>
      by_cases hs : (assocLookup m k).isSome <;>
        simp [dedupLoop, h, hs, ih, List.filter_cons]

theorem dedupLoop_grouped (l : List TemenosAnalysisResult) :
    ∀ (m : List (String × TemenosAnalysisResult)) (u : List TemenosAnalysisResult),
      (dedupLoop l m u).1 =
        m.map (fun p => (p.1, mergeNames p.2 (keyNamesOf p.1 l))) ++
        (firstSeenKeys (m.map Prod.fst) l).map (fun k => (k, mergedRep l k)) := by
  induction l with
  | nil =>
    intro m u
    simp [dedupLoop, firstSeenKeys, keyNamesOf, mergeNames]
  | cons r rest ih =>
    intro m u
    cases h : routeKey r with
    | none =>
      rw [show dedupLoop (r :: rest) m u = dedupLoop rest m (u ++ [r]) from by
        simp [dedupLoop, h]]
      rw [ih]
      have hfs : firstSeenKeys (m.map Prod.fst) (r :: rest) =
          firstSeenKeys (m.map Prod.fst) rest := by
        rw [firstSeenKeys]; simp only [h]
      rw [hfs]
      congr 1
      · apply List.map_congr_left
        intro p _
        rw [keyNamesOf_cons_ne (by simp [h])]
      · apply List.map_congr_left
        intro k2 _
        rw [mergedRep_cons_ne (by simp [h])]
    | some k =>
      by_cases hs : (assocLookup m k).isSome
      · rw [show dedupLoop (r :: rest) m u =
            dedupLoop rest (assocModify m k (addRelatedName r.service.name)) u from by
          simp [dedupLoop, h, hs]]
        rw [ih, assocModify_fst]
        have hkmem : k ∈ m.map Prod.fst := assocLookup_isSome.mp hs
        have hfs : firstSeenKeys (m.map Prod.fst) (r :: rest) =
            firstSeenKeys (m.map Prod.fst) rest := by
          rw [firstSeenKeys]; simp only [h]; exact if_pos hkmem
        rw [hfs]
        congr 1
        · unfold assocModify
          rw [List.map_map]
          apply List.map_congr_left
          intro p _
          by_cases hp : p.1 = k
          · subst hp
            simp only [Function.comp]
            rw [keyNamesOf_cons_eq h, mergeNames_cons]
            simp
          · simp only [if_neg hp, Function.comp]
            rw [keyNamesOf_cons_ne (fun he => hp (by rw [he] at h; exact (Option.some.injEq _ _).mp h))]
        · apply List.map_congr_left
          intro k2 hk2
          have hnm : k2 ∉ m.map Prod.fst := firstSeenKeys_not_mem rest _ k2 hk2
          have hne : ¬ routeKey r = some k2 := by
            rw [h]
            intro he
            exact hnm (((Option.some.injEq _ _).mp he) ▸ hkmem)
          rw [mergedRep_cons_ne hne]
      · rw [show dedupLoop (r :: rest) m u = dedupLoop rest (m ++ [(k, r)]) u from by
          simp [dedupLoop, h, hs]]
        rw [ih]
        have hknot : k ∉ m.map Prod.fst := fun hm => hs (assocLookup_isSome.mpr hm)
        have hfs : firstSeenKeys (m.map Prod.fst) (r :: rest) =
            k :: firstSeenKeys (k :: m.map Prod.fst) rest := by
          rw [firstSeenKeys]; simp only [h]; exact if_neg hknot
        rw [hfs]
        simp only [List.map_append, List.map_cons, List.map_nil]
        rw [List.append_assoc]
        congr 1
        · apply List.map_congr_left
          intro p hp
          have hpk : ¬ p.1 = k := fun he => hknot (he ▸ List.mem_map_of_mem Prod.fst hp)
          rw [keyNamesOf_cons_ne (fun he => hpk (by rw [he] at h; exact (Option.some.injEq _ _).mp h))]
        · rw [mergedRep_cons_eq h]
          refine congrArg₂ (· :: ·) rfl ?_
          rw [firstSeenKeys_congr rest
            (show ∀ x, x ∈ m.map Prod.fst ++ [k] ↔ x ∈ k :: m.map Prod.fst by
              intro x; simp [List.mem_append, List.mem_cons, or_comm])]
          apply List.map_congr_left
          intro k2 hk2
          have hnk : k2 ∉ k :: m.map Prod.fst := firstSeenKeys_not_mem rest _ k2 hk2
          have hne : ¬ routeKey r = some k2 := by
            rw [h]
            intro he
            exact hnk (((Option.some.injEq _ _).mp he) ▸ List.mem_cons_self _ _)
          rw [mergedRep_cons_ne hne]

/-- The embedded deduplicator equals the declarative aggregate. -/
theorem dedup_eq_aggregateSpec (results : List TemenosAnalysisResult) :
    deduplicateComponents results = aggregateSpec results := by
  show (dedupLoop results [] []).1.map Prod.snd ++
      (dedupLoop results [] []).2.filter (fun r => !matchesUnidentifiedInfra r.service.type) =
      aggregateSpec results
  rw [dedupLoop_grouped, dedupLoop_unrouted]
  unfold aggregateSpec
  simp only [List.map_nil, List.nil_append, List.map_map, List.filter_filter]
  congr 1
  apply List.filter_congr
  intro r _
  rw [Bool.and_comm]

theorem firstSeenKeys_complete :
    ∀ (l : List TemenosAnalysisResult) (seen : List String) (k : String),
      (∃ r ∈ l, routeKey r = some k) → k ∈ seen ∨ k ∈ firstSeenKeys seen l
  | [], _, _, h => by simp at h
  | r :: rest, seen, k, h => by
    rw [firstSeenKeys]
    obtain ⟨q, hq, hqk⟩ := h
    rcases List.mem_cons.mp hq with rfl | hq2
    · simp only [hqk]
      by_cases hk : k ∈ seen
      · exact Or.inl hk
      · rw [if_neg hk]
        exact Or.inr (List.mem_cons_self _ _)
    · cases hr : routeKey r with
      | none =>
        simp only [hr]
        exact firstSeenKeys_complete rest seen k ⟨q, hq2, hqk⟩
      | some k0 =>
        simp only [hr]
        by_cases hk0 : k0 ∈ seen
        · rw [if_pos hk0]
          exact firstSeenKeys_complete rest seen k ⟨q, hq2, hqk⟩
        · rw [if_neg hk0]
          rcases firstSeenKeys_complete rest (k0 :: seen) k ⟨q, hq2, hqk⟩ with hks | hks
          · rcases List.mem_cons.mp hks with rfl | hks2
            · exact Or.inr (List.mem_cons_self _ _)
            · exact Or.inl hks2
          · exact Or.inr (List.mem_cons_of_mem _ hks)

theorem addRelatedName_service (n : String) (r : TemenosAnalysisResult) :
    (addRelatedName n r).service = r.service := by
  rcases r with ⟨svc, info, err⟩
  cases info with
  | none => rfl
  | some i => by_cases h : n ∈ i.relatedServices <;> simp [addRelatedName, h]

theorem addRelatedName_isSome (n : String) (r : TemenosAnalysisResult) :
    (addRelatedName n r).componentInfo.isSome = r.componentInfo.isSome := by
  rcases r with ⟨svc, info, err⟩
  cases info with
  | none => rfl
  | some i => by_cases h : n ∈ i.relatedServices <;> simp [addRelatedName, h]

theorem mergeNames_service :
    ∀ (ns : List String) (r : TemenosAnalysisResult),
      (mergeNames r ns).service = r.service
  | [], _ => rfl
  | n :: ns, r => by
    rw [mergeNames_cons, mergeNames_service ns, addRelatedName_service]

theorem mergeNames_isSome :
    ∀ (ns : List String) (r : TemenosAnalysisResult),
      (mergeNames r ns).componentInfo.isSome = r.componentInfo.isSome
  | [], _ => rfl
  | n :: ns, r => by
    rw [mergeNames_cons, mergeNames_isSome ns, addRelatedName_isSome]

/-- Every aggregated entry descends from an input entry with the same service
and the same classified-ness. -/
theorem mem_dedup_exists_source {results : List TemenosAnalysisResult}
    {r : TemenosAnalysisResult} (hr : r ∈ deduplicateComponents results) :
    ∃ q ∈ results, r.service = q.service ∧
      r.componentInfo.isSome = q.componentInfo.isSome := by
  rw [dedup_eq_aggregateSpec] at hr
  rcases List.mem_append.mp hr with hm | hm
  · obtain ⟨k, hk, rfl⟩ := List.mem_map.mp hm
    obtain ⟨q0, hq0, hq0k⟩ := firstSeenKeys_exists results [] k hk
    have hfilter : q0 ∈ results.filter (fun r => routeKey r == some k) :=
      List.mem_filter.mpr ⟨hq0, by simp [hq0k]⟩
    cases hf : results.filter (fun r => routeKey r == some k) with
    | nil => rw [hf] at hfilter; simp at hfilter
    | cons first later =>
      have hfirst_mem : first ∈ results :=
        List.mem_of_mem_filter (hf ▸ List.mem_cons_self first later)
      refine ⟨first, hfirst_mem, ?_, ?_⟩
      · simp only [mergedRep, hf]
        exact mergeNames_service _ _
      · simp only [mergedRep, hf]
        exact mergeNames_isSome _ _
  · exact ⟨r, (List.mem_filter.mp hm).1, rfl, rfl⟩

/-- identify_component accepts only candidate resources. -/
theorem identify_isSome_potential {env : RagEnv} {cache : Cache} {s : AzureResource}
    {u f : Bool} (h : (identifyComponent env cache s u f).1.isSome = true) :
    isPotentialTemenosComponent s = true := by
  by_contra hn
  have hfalse : isPotentialTemenosComponent s = false := by simpa using hn
  simp [identifyComponent, hfalse] at h

theorem analyzeLoop_services (env : RagEnv) (u f : Bool) :
    ∀ (l : List AzureResource) (cache : Cache),
      ((analyzeLoop env u f cache l).1).map (·.service) = l
  | [], _ => rfl
  | s :: rest, cache => by
    simp only [analyzeLoop, List.map_cons]
    exact congrArg (s :: ·) (analyzeLoop_services env u f rest _)

theorem analyzeLoop_mem (env : RagEnv) (u f : Bool) :
    ∀ (l : List AzureResource) (cache : Cache) (r : TemenosAnalysisResult),
      r ∈ (analyzeLoop env u f cache l).1 →
      (r.componentInfo.isSome = true → isPotentialTemenosComponent r.service = true) ∧
      (r.componentInfo.isSome = true ∨
        r.error = some "Could not identify Temenos component")
  | [], _, r, h => by simp [analyzeLoop] at h
  | s :: rest, cache, r, h => by
    simp only [analyzeLoop] at h
    rcases List.mem_cons.mp h with rfl | h2
    · constructor
      · intro hsome
        exact identify_isSome_potential hsome
      · by_cases hs : (identifyComponent env cache s u f).1.isSome = true
        · exact Or.inl hs
        · have : (identifyComponent env cache s u f).1.isSome = false := by
            simpa using hs
          right
          simp [this]
    · exact analyzeLoop_mem env u f rest _ r h2

theorem analyzeServices_mem {env : RagEnv} {cache : Cache}
    {services : List AzureResource} {u f : Bool} {r : TemenosAnalysisResult}
    (h : r ∈ (analyzeServices env cache services u f).1) :
    (r.componentInfo.isSome = true → isPotentialTemenosComponent r.service = true) ∧
    (isPotentialTemenosComponent r.service = false →
      r.componentInfo = none ∧ r.error = none) ∧
    (isPotentialTemenosComponent r.service = true →
      r.componentInfo.isSome = true ∨
        r.error = some "Could not identify Temenos component") := by
  unfold analyzeServices at h
  by_cases hp : (services.filter isPotentialTemenosComponent).isEmpty
  · simp [hp] at h
  · rw [if_neg hp] at h
    rcases List.mem_append.mp h with h1 | h2
    · obtain ⟨hpot, herr⟩ := analyzeLoop_mem env u f _ _ r h1
      refine ⟨hpot, ?_, ?_⟩
      · intro hnot
        -- a loop entry has a candidate service
        have hsrv : r.service ∈
            ((analyzeLoop env u f cache (services.filter isPotentialTemenosComponent)).1).map
              (·.service) := List.mem_map_of_mem _ h1
        rw [analyzeLoop_services] at hsrv
        have := List.of_mem_filter hsrv
        rw [hnot] at this
        cases this
      · exact fun _ => herr
    · obtain ⟨s, hs, rfl⟩ := List.mem_map.mp h2
      have hsfalse : isPotentialTemenosComponent s = false := by
        have := (List.mem_filter.mp hs).2
        simpa using this
      refine ⟨fun hsome => ?_, fun _ => ⟨rfl, rfl⟩, fun hpott => ?_⟩
      · simp at hsome
      · rw [hsfalse] at hpott
        cases hpott

/-- C3 (amended): the aggregator emits exactly one result per distinct grouping
key among the classified entries not diverted as infrastructure (classified
non-pod entries whose type matches the infrastructure prefixes are moved to
the unclassified set), representatives in first-appearance order with
append-if-absent merging of later duplicates' display names; these are
followed by exactly the unclassified-set entries whose resource type does not
match the extended deny-list, which adds virtual machines and scale sets to
the section 4.4 categories. -/
theorem aggregator_grouping_amended (results : List TemenosAnalysisResult) :
    deduplicateComponents results = aggregateSpec results ∧
    (firstSeenKeys [] results).Nodup ∧
    (∀ k, k ∈ firstSeenKeys [] results ↔ ∃ r ∈ results, routeKey r = some k) := by
  refine ⟨dedup_eq_aggregateSpec results, firstSeenKeys_nodup results [],
    fun k => ⟨fun h => firstSeenKeys_exists results [] k h, fun h => ?_⟩⟩
  rcases firstSeenKeys_complete results [] k h with hk | hk
  · cases hk
  · exact hk

/-- C1 (amended): a resource whose type matches the infrastructure deny-list
and which carries no truthy component tag is rejected by the candidate filter,
and the aggregated output of the analyze pipeline never contains it as an
identified component (the tag check precedes the deny-list in the source, so
the tag-free hypothesis is required). -/
theorem deny_list_rejected_amended (s : AzureResource)
    (hdeny : matchesInfraDenyList s.type = true)
    (htag : hasTruthyComponentTag s = false) :
    isPotentialTemenosComponent s = false ∧
    ∀ (env : RagEnv) (cache : Cache) (services : List AzureResource)
      (useCache forceRefresh : Bool) (r : TemenosAnalysisResult),
      r ∈ deduplicateComponents (analyzeServices env cache services useCache forceRefresh).1 →
      r.componentInfo.isSome = true → r.service ≠ s := by
  have hdeny2 : infrastructureTypes.any (fun t => containsB (strToLower s.type) t) = true :=
    hdeny
  have hpot : isPotentialTemenosComponent s = false := by
    simp [isPotentialTemenosComponent, htag, hdeny2]
  refine ⟨hpot, ?_⟩
  intro env cache services u f r hr hsome heq
  obtain ⟨q, hq, hserv, hsome_eq⟩ := mem_dedup_exists_source hr
  have hqpot : isPotentialTemenosComponent q.service = true :=
    (analyzeServices_mem hq).1 (hsome_eq ▸ hsome)
  have hqs : q.service = s := hserv ▸ heq
  rw [hqs, hpot] at hqpot
  cases hqpot

/-- Witness for C1 at a concrete pipeline run containing an untagged storage
account alongside a pod. -/
theorem deny_list_rejected_witness :
    isPotentialTemenosComponent storageNoTag = false ∧
    ((deduplicateComponents (analyzeServices envOffline [] [podA, storageNoTag] true false).1).get
        ⟨0, by decide⟩).service ≠ storageNoTag := by
  have h := deny_list_rejected_amended storageNoTag (by decide) (by decide)
  exact ⟨h.1, h.2 envOffline [] [podA, storageNoTag] true false _
    (List.get_mem _ _ _) (by decide)⟩

/-! ### Lemmas: cache behaviour of identify_component -/

theorem cacheLookup_map_replace {k : String} {v : TemenosComponentInfo} :
    ∀ (c : Cache), (c.find? (fun p => p.1 == k)).isSome = true →
      cacheLookup (c.map (fun p => if p.1 == k then (k, v) else p)) k = some v
  | [], h => by simp [List.find?] at h
  | p :: rest, h => by
    by_cases hp : (p.1 == k) = true
    · simp [cacheLookup, List.find?, hp]
    · have hb : (p.1 == k) = false := by simpa using hp
      have h2 : (rest.find? (fun p => p.1 == k)).isSome = true := by
        simpa [List.find?, hb] using h
      have ih := @cacheLookup_map_replace k v rest h2
      simpa [cacheLookup, List.find?, hb] using ih

theorem cacheLookup_append_single {k : String} {v : TemenosComponentInfo} :
    ∀ (c : Cache), c.find? (fun p => p.1 == k) = none →
      cacheLookup (c ++ [(k, v)]) k = some v
  | [], _ => by simp [cacheLookup, List.find?]
  | p :: rest, h => by
    have hb : (p.1 == k) = false := by
      by_contra hc
      have hc2 : (p.1 == k) = true := by simpa using hc
      simp [List.find?, hc2] at h
    have h2 : rest.find? (fun p => p.1 == k) = none := by
      simpa [List.find?, hb] using h
    have ih := @cacheLookup_append_single k v rest h2
    simpa [cacheLookup, List.find?, List.cons_append, hb] using ih

theorem cacheLookup_insert (c : Cache) (k : String) (v : TemenosComponentInfo) :
    cacheLookup (cacheInsert c k v) k = some v := by
  unfold cacheInsert
  by_cases h : (c.find? (fun p => p.1 == k)).isSome = true
  · rw [if_pos h]
    exact cacheLookup_map_replace c h
  · have h2 : c.find? (fun p => p.1 == k) = none := by
      cases hc : c.find? (fun p => p.1 == k) with
      | none => rfl
      | some p => rw [hc] at h; simp at h
    rw [if_neg (by simp [h2])]
    exact cacheLookup_append_single c h2

/-- The fresh path returns the freshly built info, inserts it under the
lower-cased name, and issues at most one pair of queries; the built info has
the canonical name and an empty related_services list. -/
theorem identifyFresh_spec (env : RagEnv) (cache : Cache) (s : AzureResource)
    (n cat : String) :
    ∃ i q, identifyFresh env cache s n cat true = (some i, cacheInsert cache (strToLower n) i, q) ∧
      i.componentName = n ∧ i.relatedServices = [] ∧ q ≤ 2 := by
  by_cases h : env.available = true
  · refine ⟨ragComponentInfo env s n cat, 2, ?_, rfl, rfl, le_refl 2⟩
    simp [identifyFresh, h]
  · have h2 : env.available = false := by simpa using h
    refine ⟨minimalComponentInfo n s, 0, ?_, rfl, rfl, by norm_num⟩
    simp [identifyFresh, h2]

/-- One identify_component call on a classified candidate, with the cache
invariant that any entry under the canonical key carries the canonical name
and an empty related_services list: the call returns such an info and
preserves the invariant. -/
theorem identifyComponent_classified (env : RagEnv) (cache : Cache)
    (s : AzureResource) (ext : Extracted)
    (hpot : isPotentialTemenosComponent s = true)
    (hext : extractComponentName s = some ext)
    (hinv : ∀ i, cacheLookup cache (strToLower ext.normalizedName) = some i →
      i.componentName = ext.normalizedName ∧ i.relatedServices = []) :
    ∃ i, (identifyComponent env cache s true false).1 = some i ∧
      i.componentName = ext.normalizedName ∧ i.relatedServices = [] ∧
      (∀ j, cacheLookup (identifyComponent env cache s true false).2.1
          (strToLower ext.normalizedName) = some j →
          j.componentName = ext.normalizedName ∧ j.relatedServices = []) := by
  unfold identifyComponent
  simp only [hpot, hext, Bool.not_true, Bool.false_eq_true, if_false]
  cases hl : cacheLookup cache (strToLower ext.normalizedName) with
  | none =>
    simp only [Bool.not_false, Bool.and_self, eq_self_iff_true, if_true]
    obtain ⟨i, q, heq, hn, hr, _⟩ :=
      identifyFresh_spec env cache s ext.normalizedName ext.componentCategory
    rw [heq]
    refine ⟨i, rfl, hn, hr, ?_⟩
    intro j hj
    rw [cacheLookup_insert] at hj
    cases hj
    exact ⟨hn, hr⟩
  | some cached =>
    simp only [Bool.not_false, Bool.and_self, eq_self_iff_true, if_true]
    by_cases hm : (isMinimalCached ext.normalizedName cached && env.available) = true
    · rw [if_pos hm]
      obtain ⟨i, q, heq, hn, hr, _⟩ :=
        identifyFresh_spec env (cacheErase cache (strToLower ext.normalizedName)) s
          ext.normalizedName ext.componentCategory
      rw [heq]
      refine ⟨i, rfl, hn, hr, ?_⟩
      intro j hj
      rw [cacheLookup_insert] at hj
      cases hj
      exact ⟨hn, hr⟩
    · rw [if_neg (by simpa using hm)]
      obtain ⟨hcn, hcr⟩ := hinv cached hl
      exact ⟨_, rfl, hcn, hcr, fun j hj => hinv j hj⟩

/-- The deduplicator on three results routed to one key: the first is the
representative and the later display names are merged append-if-absent. -/
theorem dedup_three_same_key (r1 r2 r3 : TemenosAnalysisResult) (k : String)
    (h1 : routeKey r1 = some k) (h2 : routeKey r2 = some k)
    (h3 : routeKey r3 = some k) :
    deduplicateComponents [r1, r2, r3] =
      [addRelatedName r3.service.name (addRelatedName r2.service.name r1)] := by
  have hlk : assocLookup [(k, r1)] k = some r1 := by
    simp [assocLookup, List.find?]
  have hlk2 : assocLookup [(k, addRelatedName r2.service.name r1)] k =
      some (addRelatedName r2.service.name r1) := by
    simp [assocLookup, List.find?]
  unfold deduplicateComponents
  simp only [dedupLoop, h1, h2, h3, assocLookup, List.find?, List.map_nil,
    Option.isSome_none, Bool.false_eq_true, if_false, List.nil_append,
    assocModify, List.map_cons]
  simp [dedupLoop, hlk, hlk2, assocModify]

/-- C2 (amended): for three pod resources named pod-a, pod-b, pod-c in
namespace adapterservice, fed through the pod adapter, analyze returns exactly
one result whose canonical component name is Adapter Microservice; its
related_services list holds the namespace-qualified display names
["adapterservice/pod-b", "adapterservice/pod-c"] (the aggregator appends the
pod display name namespace/pod, not the bare pod name), whatever the state of
the knowledge service. -/
theorem adapter_pipeline_amended (env : RagEnv) :
    ∃ r, deduplicateComponents (analyzeServices env [] [podA, podB, podC] true false).1 = [r] ∧
      r.componentInfo.map (·.componentName) = some "Adapter Microservice" ∧
      r.componentInfo.map (·.relatedServices) =
        some ["adapterservice/pod-b", "adapterservice/pod-c"] := by
  have hpotA : isPotentialTemenosComponent podA = true := by decide
  have hpotB : isPotentialTemenosComponent podB = true := by decide
  have hpotC : isPotentialTemenosComponent podC = true := by decide
  have hextA : extractComponentName podA =
      some ⟨"pod-a", "Adapter Microservice", "microservice"⟩ := by decide
  have hextB : extractComponentName podB =
      some ⟨"pod-b", "Adapter Microservice", "microservice"⟩ := by decide
  have hextC : extractComponentName podC =
      some ⟨"pod-c", "Adapter Microservice", "microservice"⟩ := by decide
  obtain ⟨iA, hA1, hA2, hA3, hAinv⟩ :=
    identifyComponent_classified env [] podA
      ⟨"pod-a", "Adapter Microservice", "microservice"⟩ hpotA hextA
      (by intro i hi; simp [cacheLookup, List.find?] at hi)
  obtain ⟨iB, hB1, hB2, hB3, hBinv⟩ :=
    identifyComponent_classified env (identifyComponent env [] podA true false).2.1 podB
      ⟨"pod-b", "Adapter Microservice", "microservice"⟩ hpotB hextB hAinv
  obtain ⟨iC, hC1, hC2, hC3, _⟩ :=
    identifyComponent_classified env
      (identifyComponent env (identifyComponent env [] podA true false).2.1 podB true false).2.1
      podC ⟨"pod-c", "Adapter Microservice", "microservice"⟩ hpotC hextC hBinv
  have hlist : (analyzeServices env [] [podA, podB, podC] true false).1 =
      [⟨podA, some iA, none⟩, ⟨podB, some iB, none⟩, ⟨podC, some iC, none⟩] := by
    unfold analyzeServices
    rw [show List.filter isPotentialTemenosComponent [podA, podB, podC] = [podA, podB, podC]
      from by decide]
    rw [show List.filter (fun s => !isPotentialTemenosComponent s) [podA, podB, podC] = []
      from by decide]
    rw [if_neg (by decide)]
    simp only [analyzeLoop, hA1, hB1, hC1, Option.isSome_some, eq_self_iff_true, if_true,
      List.map_nil, List.append_nil]
  have hlow : strToLower "adapterservice" = "adapterservice" := by decide
  have hne : ("adapterservice" != "") = true := by decide
  have hctA : containsB (strToLower podA.type) "managedclusters/pods" = true := by decide
  have hctB : containsB (strToLower podB.type) "managedclusters/pods" = true := by decide
  have hctC : containsB (strToLower podC.type) "managedclusters/pods" = true := by decide
  have hnsA : dictGetD podA.properties "namespace" "" = "adapterservice" := by decide
  have hnsB : dictGetD podB.properties "namespace" "" = "adapterservice" := by decide
  have hnsC : dictGetD podC.properties "namespace" "" = "adapterservice" := by decide
  have hrA : routeKey (⟨podA, some iA, none⟩ : TemenosAnalysisResult) =
      some "adapterservice" := by
    simp [routeKey, hctA, hnsA, hne, hlow]
  have hrB : routeKey (⟨podB, some iB, none⟩ : TemenosAnalysisResult) =
      some "adapterservice" := by
    simp [routeKey, hctB, hnsB, hne, hlow]
  have hrC : routeKey (⟨podC, some iC, none⟩ : TemenosAnalysisResult) =
      some "adapterservice" := by
    simp [routeKey, hctC, hnsC, hne, hlow]
  have hded : deduplicateComponents
      [⟨podA, some iA, none⟩, ⟨podB, some iB, none⟩, ⟨podC, some iC, none⟩] =
      [addRelatedName "adapterservice/pod-c"
        (addRelatedName "adapterservice/pod-b" ⟨podA, some iA, none⟩)] :=
    dedup_three_same_key ⟨podA, some iA, none⟩ ⟨podB, some iB, none⟩
      ⟨podC, some iC, none⟩ "adapterservice" hrA hrB hrC
  have hstep1 : addRelatedName "adapterservice/pod-b"
      (⟨podA, some iA, none⟩ : TemenosAnalysisResult) =
      ⟨podA, some { iA with relatedServices := ["adapterservice/pod-b"] }, none⟩ := by
    simp [addRelatedName, hA3]
  have hnomem : ¬ ("adapterservice/pod-c" ∈ (["adapterservice/pod-b"] : List String)) := by
    decide
  have hstep2 : addRelatedName "adapterservice/pod-c"
      (⟨podA, some { iA with relatedServices := ["adapterservice/pod-b"] }, none⟩ :
        TemenosAnalysisResult) =
      ⟨podA, some { iA with
        relatedServices := ["adapterservice/pod-b", "adapterservice/pod-c"] }, none⟩ := by
    simp [addRelatedName, hnomem]
  rw [hstep1, hstep2] at hded
  refine ⟨_, by rw [hlist, hded], ?_, ?_⟩
  · simp [hA2]
  · simp

/-- C4 (amended): on one service instance with caching on and no forced
refresh, two calls for resources classifying to the same canonical name issue
at most one pair of knowledge-service queries, and the second call issues none
and answers from the cache — provided the entry stored by the first call does
not itself pass the minimal-placeholder staleness test while the service is
reachable (in that corner case the entry is evicted and recomputed, issuing a
second pair). -/
theorem enrichment_idempotent_amended (env : RagEnv) (cache0 : Cache)
    (r1 r2 : AzureResource) (e1 e2 : Extracted)
    (hpot1 : isPotentialTemenosComponent r1 = true)
    (hpot2 : isPotentialTemenosComponent r2 = true)
    (hext1 : extractComponentName r1 = some e1)
    (hext2 : extractComponentName r2 = some e2)
    (hkey : strToLower e1.normalizedName = strToLower e2.normalizedName)
    (hmiss : cacheLookup cache0 (strToLower e1.normalizedName) = none)
    (hstale : Option.all
        (fun i => !(isMinimalCached e2.normalizedName i && env.available))
        (cacheLookup (identifyComponent env cache0 r1 true false).2.1
          (strToLower e2.normalizedName)) = true) :
    (identifyComponent env cache0 r1 true false).2.2 +
      (identifyComponent env (identifyComponent env cache0 r1 true false).2.1
        r2 true false).2.2 ≤ 2 ∧
    (identifyComponent env (identifyComponent env cache0 r1 true false).2.1
      r2 true false).2.2 = 0 ∧
    ∃ j, cacheLookup (identifyComponent env cache0 r1 true false).2.1
        (strToLower e2.normalizedName) = some j ∧
      (identifyComponent env (identifyComponent env cache0 r1 true false).2.1
        r2 true false).1 = some { j with componentType := determineComponentType r2 } := by
  have hcall1 : identifyComponent env cache0 r1 true false =
      identifyFresh env cache0 r1 e1.normalizedName e1.componentCategory true := by
    unfold identifyComponent
    simp only [hpot1, hext1, Bool.not_true, Bool.false_eq_true, if_false, Bool.not_false,
      Bool.and_self, eq_self_iff_true, if_true, hmiss]
  obtain ⟨i, q, heq, hn, hr, hq2⟩ :=
    identifyFresh_spec env cache0 r1 e1.normalizedName e1.componentCategory
  rw [heq] at hcall1
  have hlook2 : cacheLookup (cacheInsert cache0 (strToLower e1.normalizedName) i)
      (strToLower e2.normalizedName) = some i := by
    rw [← hkey]
    exact cacheLookup_insert cache0 _ i
  rw [hcall1] at hstale
  have hstale2 : Option.all
      (fun i => !(isMinimalCached e2.normalizedName i && env.available)) (some i) = true := by
    rw [← hlook2]
    exact hstale
  have hnot : (!(isMinimalCached e2.normalizedName i && env.available)) = true := by
    simpa [Option.all] using hstale2
  have hX : (isMinimalCached e2.normalizedName i && env.available) = false := by
    cases hb : (isMinimalCached e2.normalizedName i && env.available)
    · rfl
    · rw [hb] at hnot
      simp at hnot
  have hcall2 : identifyComponent env (cacheInsert cache0 (strToLower e1.normalizedName) i)
      r2 true false =
      (some { i with componentType := determineComponentType r2 },
       cacheInsert cache0 (strToLower e1.normalizedName) i, 0) := by
    unfold identifyComponent
    simp only [hpot2, hext2, Bool.not_true, Bool.false_eq_true, if_false, Bool.not_false,
      Bool.and_self, eq_self_iff_true, if_true, hlook2]
    rw [if_neg (by simp [hX])]
  refine ⟨?_, ?_, i, ?_, ?_⟩
  · rw [hcall1]
    show q + (identifyComponent env (cacheInsert cache0 (strToLower e1.normalizedName) i)
      r2 true false).2.2 ≤ 2
    rw [hcall2]
    simpa using hq2
  · rw [hcall1]
    show (identifyComponent env (cacheInsert cache0 (strToLower e1.normalizedName) i)
      r2 true false).2.2 = 0
    rw [hcall2]
  · rw [hcall1]
    exact hlook2
  · rw [hcall1]
    show (identifyComponent env (cacheInsert cache0 (strToLower e1.normalizedName) i)
      r2 true false).1 = some { i with componentType := determineComponentType r2 }
    rw [hcall2]

set_option maxRecDepth 40000 in
/-- Witness for C4: a reachable service whose queries time out and fail; the
first call issues the pair, the second call issues none. -/
theorem enrichment_idempotent_witness :
    (identifyComponent envDegraded [] podA true false).2.2 +
      (identifyComponent envDegraded (identifyComponent envDegraded [] podA true false).2.1
        podB true false).2.2 ≤ 2 ∧
    (identifyComponent envDegraded (identifyComponent envDegraded [] podA true false).2.1
      podB true false).2.2 = 0 := by
  have h := enrichment_idempotent_amended envDegraded [] podA podB
    ⟨"pod-a", "Adapter Microservice", "microservice"⟩
    ⟨"pod-b", "Adapter Microservice", "microservice"⟩
    (by decide) (by decide) (by decide) (by decide) rfl (by decide) (by decide)
  exact ⟨h.1, h.2.1⟩

/-- C5: with the knowledge service reachable, if either of the two queries for
a fresh (uncached) classification times out or fails with a transport error,
identify_component still returns a non-null ComponentKnowledge whose affected
half is the corresponding fixed placeholder text (the detailed templated
paragraph on a timeout, the fixed not-available string on a transport error);
no exception escapes, modelled by the call being total and returning some. -/
theorem degraded_query_placeholder (env : RagEnv) (cache : Cache)
    (s : AzureResource) (e : Extracted)
    (hpot : isPotentialTemenosComponent s = true)
    (hext : extractComponentName s = some e)
    (hmiss : cacheLookup cache (strToLower e.normalizedName) = none)
    (havail : env.available = true) :
    ∃ i, (identifyComponent env cache s true false).1 = some i ∧
      (env.arch e.normalizedName e.componentCategory = .timeout →
        i.architecturalOverview = archDetailedFallback e.normalizedName) ∧
      (env.arch e.normalizedName e.componentCategory = .failure →
        i.architecturalOverview = "Information not available - error") ∧
      (env.func e.normalizedName e.componentCategory = .timeout →
        i.functionalOverview = funcDetailedFallback e.normalizedName) ∧
      (env.func e.normalizedName e.componentCategory = .failure →
        i.functionalOverview = "Information not available - error") := by
  have hcall : identifyComponent env cache s true false =
      identifyFresh env cache s e.normalizedName e.componentCategory true := by
    unfold identifyComponent
    simp only [hpot, hext, Bool.not_true, Bool.false_eq_true, if_false, Bool.not_false,
      Bool.and_self, eq_self_iff_true, if_true, hmiss]
  have hfmtT : formatRagResponse "Information not available - timeout" =
      "Information not available - timeout" := by decide
  have hfmtE : formatRagResponse "Information not available - error" =
      "Information not available - error" := by decide
  refine ⟨ragComponentInfo env s e.normalizedName e.componentCategory,
    by rw [hcall]; simp [identifyFresh, havail], ?_, ?_, ?_, ?_⟩
  · intro ht
    simp only [ragComponentInfo, ht, outcomeAnswer, hfmtT]
    simp
  · intro ht
    simp only [ragComponentInfo, ht, outcomeAnswer, hfmtE]
    rw [if_neg (by decide)]
  · intro ht
    simp only [ragComponentInfo, ht, outcomeAnswer, hfmtT]
    simp
  · intro ht
    simp only [ragComponentInfo, ht, outcomeAnswer, hfmtE]
    rw [if_neg (by decide)]

/-- Witness for C5: a pod classification against a reachable service whose
architectural query times out and whose functional query fails. -/
theorem degraded_query_placeholder_witness :
    ∃ i, (identifyComponent envDegraded [] podA true false).1 = some i ∧
      i.architecturalOverview = archDetailedFallback "Adapter Microservice" ∧
      i.functionalOverview = "Information not available - error" := by
  obtain ⟨i, h1, h2, _, _, h5⟩ := degraded_query_placeholder envDegraded [] podA
    ⟨"pod-a", "Adapter Microservice", "microservice"⟩ (by decide) (by decide) rfl rfl
  exact ⟨i, h1, h2 rfl, h5 rfl⟩

/-- C6 (amended): when at least one input resource is a candidate, the batch
returns exactly one result per input resource — the candidates first, in
order, each carrying knowledge or the fixed error string, then every
non-candidate as an unclassified entry with no knowledge and no error; with no
candidate at all the source returns the empty list instead. -/
theorem batch_complete_amended (env : RagEnv) (cache : Cache)
    (services : List AzureResource) (useCache forceRefresh : Bool)
    (hne : services.filter isPotentialTemenosComponent ≠ []) :
    ((analyzeServices env cache services useCache forceRefresh).1).map (·.service) =
      services.filter isPotentialTemenosComponent ++
        services.filter (fun s => !isPotentialTemenosComponent s) ∧
    List.Perm (((analyzeServices env cache services useCache forceRefresh).1).map
      (·.service)) services ∧
    (∀ r ∈ (analyzeServices env cache services useCache forceRefresh).1,
      (isPotentialTemenosComponent r.service = true →
        r.componentInfo.isSome = true ∨
          r.error = some "Could not identify Temenos component") ∧
      (isPotentialTemenosComponent r.service = false →
        r.componentInfo = none ∧ r.error = none)) := by
  have hmap : ((analyzeServices env cache services useCache forceRefresh).1).map (·.service) =
      services.filter isPotentialTemenosComponent ++
        services.filter (fun s => !isPotentialTemenosComponent s) := by
    unfold analyzeServices
    rw [if_neg (fun h => hne (List.isEmpty_iff.mp h))]
    rw [List.map_append, analyzeLoop_services]
    congr 1
    rw [List.map_map]
    exact List.map_id _
  refine ⟨hmap, ?_, ?_⟩
  · rw [hmap]
    exact List.filter_append_perm _ _
  · intro r hr
    exact ⟨(analyzeServices_mem hr).2.2, (analyzeServices_mem hr).2.1⟩

/-- Witness for C6: a candidate pod plus a non-candidate storage account. -/
theorem batch_complete_witness :
    ((analyzeServices envOffline [] [podA, storageNoTag] true false).1).map (·.service) =
      [podA, storageNoTag].filter isPotentialTemenosComponent ++
        [podA, storageNoTag].filter (fun s => !isPotentialTemenosComponent s) ∧
    List.Perm (((analyzeServices envOffline [] [podA, storageNoTag] true false).1).map
      (·.service)) [podA, storageNoTag] := by
  have h := batch_complete_amended envOffline [] [podA, storageNoTag] true false (by decide)
  exact ⟨h.1, h.2.1⟩

end CloudDiscovery
